import Mathlib

/-!
Verification of the SAF-T validator (Python sources `app.py` and
`validators/fiscal.py`) against its natural-language specification.

Modelling conventions used throughout this file:
* XML elements are modelled as `Option String` holding the element's raw
  text (`none` = element absent, or present with no text); `_ftext` mirrors
  the Python helper of the same name.
* Python `float` values arising from parsed decimal strings are modelled as
  exact rationals (`ℚ`); the tolerance checks (`0.01`, `0.001`, `0.05`) are
  stated over `ℚ`.
* `float(s)` / `int(s)` string parsing is modelled for plain decimal
  literals (optional sign, digits, one optional decimal point), which is
  the fragment exercised by the validator; digits are ASCII.
* `datetime.fromisoformat` is modelled for `YYYY-MM-DD` date strings,
  the only shape the validator feeds it, including calendar validity
  (month ranges, leap years).
* The error accumulator (a Python list mutated by `errors.append`) is
  modelled by explicit list passing: each pass takes the accumulator and
  returns the extended one.
* All string algorithms work on `List Char` (`String.data`) by structural
  recursion so that concrete runs reduce in the kernel.
-/

namespace Saft

/-- ASCII decimal digit value of a character. -/
def digitVal (c : Char) : Nat := c.toNat - 48

/-- Numeric value of a digit string, most significant digit first. -/
def digitsVal (l : List Char) : Nat := l.foldl (fun a c => 10 * a + digitVal c) 0

/-- Python `str.strip` on a character list (whitespace at both ends). -/
def trimChars (l : List Char) : List Char :=
  ((l.dropWhile Char.isWhitespace).reverse.dropWhile Char.isWhitespace).reverse

/-- Model of `_ftext`: element text, stripped, `none` when absent or blank. -/
def _ftext (el : Option String) : Option String :=
  match el with
  | none => none
  | some t =>
    let s := trimChars t.data
    if s.isEmpty then none else some ⟨s⟩

/-- Python truthiness of an optional string: `none` and `""` are falsy. -/
def pyNot (o : Option String) : Bool :=
  match o with
  | none => true
  | some s => s = ""

/-- Unsigned decimal literal: `digits`, `digits.digits`, `digits.`, `.digits`. -/
def parseDecimalCore (l : List Char) : Option ℚ :=
  let ip := l.takeWhile Char.isDigit
  let rest := l.drop ip.length
  match rest with
  | [] => if ip.isEmpty then none else some (digitsVal ip : ℚ)
  | '.' :: fp =>
    if fp.all Char.isDigit && (!ip.isEmpty || !fp.isEmpty) then
      some ((digitsVal ip : ℚ) + (digitsVal fp : ℚ) / ((10 : ℚ) ^ fp.length))
    else none
  | _ => none

/-- Model of Python `float(s)` on plain decimal literals (strips
whitespace, optional sign, optional single decimal point). -/
def pyFloat (s : String) : Option ℚ :=
  match trimChars s.data with
  | '+' :: rest => parseDecimalCore rest
  | '-' :: rest => (parseDecimalCore rest).map (fun q => -q)
  | l => parseDecimalCore l

/-- Model of Python `int(s)` on plain decimal literals. -/
def pyInt (s : String) : Option ℤ :=
  match trimChars s.data with
  | '+' :: rest =>
    if !rest.isEmpty && rest.all Char.isDigit then some (digitsVal rest : ℤ) else none
  | '-' :: rest =>
    if !rest.isEmpty && rest.all Char.isDigit then some (-(digitsVal rest : ℤ)) else none
  | l => if !l.isEmpty && l.all Char.isDigit then some (digitsVal l : ℤ) else none

/-- Model of `float(_ftext(el))`: raises (returns `none`) when the element
is absent/blank or the text is not numeric. -/
def _float (el : Option String) : Option ℚ := (_ftext el).bind pyFloat

/-- A calendar date as produced by `datetime.fromisoformat(...).date()`. -/
structure PyDate where
  year : Nat
  month : Nat
  day : Nat
deriving DecidableEq, Repr

def isLeap (y : Nat) : Bool := (y % 4 == 0 && y % 100 != 0) || (y % 400 == 0)

def daysInMonth (y m : Nat) : Nat :=
  if m = 2 then (if isLeap y then 29 else 28)
  else if m = 4 || m = 6 || m = 9 || m = 11 then 30
  else 31

/-- Model of `datetime.fromisoformat` on `YYYY-MM-DD` strings. -/
def fromisoformat (s : String) : Option PyDate :=
  match s.data with
  | [y1, y2, y3, y4, '-', m1, m2, '-', d1, d2] =>
    if [y1, y2, y3, y4, m1, m2, d1, d2].all Char.isDigit then
      let y := digitsVal [y1, y2, y3, y4]
      let m := digitsVal [m1, m2]
      let d := digitsVal [d1, d2]
      if 1 ≤ m ∧ m ≤ 12 ∧ 1 ≤ d ∧ d ≤ daysInMonth y m then some ⟨y, m, d⟩ else none
    else none
  | _ => none

/-- Lexicographic `≤` on dates, as Python compares `date` values. -/
def dateLeB (a b : PyDate) : Bool :=
  if a.year < b.year then true
  else if b.year < a.year then false
  else if a.month < b.month then true
  else if b.month < a.month then false
  else decide (a.day ≤ b.day)

/-- `_validar_nif_pt` from `validators/fiscal.py` (identical copy in
`app.py`): 9 digits, restricted first digit, mod-11 check digit. -/
def _validar_nif_pt (nif : String) : Bool :=
  let cs := nif.data
  if cs.length == 9 && cs.all Char.isDigit then
    match cs.head? with
    | some c0 =>
      if "1235689".data.contains c0 then
        let d := fun i => digitVal (cs.getD i '0')
        let total := (List.range 8).foldl (fun acc i => acc + d i * (9 - i)) 0
        let check := 11 - total % 11
        (if 10 ≤ check then 0 else check) == d 8
      else false
    | none => false
  else false

/-- The spec's characterisation of a valid NIF (§4.1 / C1): exactly 9
decimal digits, first digit in {1,2,3,5,6,8,9}, and the mod-11 check digit
over digits 0..7 with weights 9..2 (a computed check value of 10 mapping
to 0) equal to digit 8. -/
def nifChecksumSpec (s : String) : Prop :=
  s.data.length = 9 ∧
  (∀ c ∈ s.data, c.isDigit = true) ∧
  (∃ c0 rest, s.data = c0 :: rest ∧ c0 ∈ ['1', '2', '3', '5', '6', '8', '9']) ∧
  (let d := fun i => digitVal (s.data.getD i '0')
   let total := ((List.range 8).map (fun i => d i * (9 - i))).sum
   let check := (11 - total % 11) % 11
   (if check = 10 then 0 else check) = d 8)

/-- ATCUD body: a run of at least 8 alphanumerics, a dash, then digits. -/
def atcudCore (l : List Char) : Bool :=
  let a := l.takeWhile Char.isAlphanum
  let rest := l.drop a.length
  decide (8 ≤ a.length) &&
    match rest with
    | '-' :: ds => !ds.isEmpty && ds.all Char.isDigit
    | _ => false

/-- Model of `_ATCUD_RE.match`: optional `ATCUD:` prefix with whitespace,
then `[A-Za-z0-9]{8,}-[0-9]+` up to the end of the string. -/
def atcudMatch (s : String) : Bool :=
  let l := s.data
  if l.take 6 = "ATCUD:".data then atcudCore ((l.drop 6).dropWhile Char.isWhitespace)
  else atcudCore l

/-- Model of `re.fullmatch(r"\d+(\.\d+)?", hc)`. -/
def hashControlNumeric (s : String) : Bool :=
  let ip := s.data.takeWhile Char.isDigit
  let rest := s.data.drop ip.length
  !ip.isEmpty &&
    match rest with
    | [] => true
    | '.' :: fp => !fp.isEmpty && fp.all Char.isDigit
    | _ => false

/-! ## The SAF-T document fragments read by the fiscal passes -/

/-- The `Header` element: the fields read by passes 1-3. -/
structure Header where
  auditFileVersion : Option String
  companyID : Option String
  taxRegistrationNumber : Option String
  companyName : Option String
  fiscalYear : Option String
  startDate : Option String
  endDate : Option String
  currencyCode : Option String
  dateCreated : Option String

/-- An invoice `DocumentTotals` element. -/
structure DocTotals where
  netTotal : Option String
  taxPayable : Option String
  grossTotal : Option String

/-- A `SalesInvoices/Invoice` element: the fields read by passes 3-4. -/
structure SalesInvoice where
  invoiceNo : Option String
  invoiceDate : Option String
  atcud : Option String
  hash : Option String
  hashControl : Option String
  documentTotals : Option DocTotals

/-- A `TaxTableEntry` element. -/
structure TaxTableEntry where
  taxType : Option String
  taxCountryRegion : Option String
  taxCode : Option String
  taxPercentage : Option String

/-- The `IVA_REGRAS` reference table from `validators/fiscal.py`. -/
def IVA_REGRAS : String → Option ℚ
  | "NOR" => some 23
  | "INT" => some 13
  | "RED" => some 6
  | "ISE" => some 0
  | "OUT" => some 0
  | _ => none

/-! ## Pass 1-3: header completeness, date consistency, header NIF -/

/-- The `obrigatorios` field list of `validar_header`, paired with the
field values of a given header. -/
def headerRequired (h : Header) : List (String × Option String) :=
  [("AuditFileVersion", h.auditFileVersion),
   ("CompanyID", h.companyID),
   ("TaxRegistrationNumber", h.taxRegistrationNumber),
   ("CompanyName", h.companyName),
   ("FiscalYear", h.fiscalYear),
   ("StartDate", h.startDate),
   ("EndDate", h.endDate),
   ("CurrencyCode", h.currencyCode),
   ("DateCreated", h.dateCreated)]

/-- `validar_header`: one terminal error when `Header` is absent, else one
error per missing mandatory field. -/
def validar_header (header : Option Header) (errors : List String) : List String :=
  match header with
  | none => errors ++ ["Header em falta."]
  | some h =>
    errors ++ (headerRequired h).filterMap fun p =>
      if _ftext p.2 = none then some ("Header." ++ p.1 ++ " é obrigatório.") else none

/-- `validar_datas`: silently returns when `Header` is absent; otherwise
parses FiscalYear/StartDate/EndDate, any failure yielding the single
generic error, and checks date order and fiscal-year consistency. -/
def validar_datas (header : Option Header) (errors : List String) : List String :=
  match header with
  | none => errors
  | some h =>
    match (_ftext h.fiscalYear).bind pyInt,
          (_ftext h.startDate).bind fromisoformat,
          (_ftext h.endDate).bind fromisoformat with
    | some fy, some start, some stop =>
      errors
        ++ (if !dateLeB start stop then ["StartDate não pode ser maior que EndDate."] else [])
        ++ (if (start.year : ℤ) ≠ fy then ["FiscalYear não corresponde ao ano de StartDate."] else [])
    | _, _, _ => errors ++ ["Datas fiscais inválidas no Header."]

/-- `validar_nif`: silently returns when `Header` is absent or the tax
registration number is blank; otherwise checks the NIF. -/
def validar_nif (header : Option Header) (errors : List String) : List String :=
  match header with
  | none => errors
  | some h =>
    match _ftext h.taxRegistrationNumber with
    | none => errors
    | some nif => if _validar_nif_pt nif then errors else errors ++ ["NIF inválido no Header."]

/-! ## Pass 2: tax table -/

/-- Completeness of one `TaxTableEntry` (all four fields non-blank). -/
def entryComplete (e : TaxTableEntry) : Prop :=
  (_ftext e.taxType).isSome ∧ (_ftext e.taxCountryRegion).isSome ∧
  (_ftext e.taxCode).isSome ∧ (_ftext e.taxPercentage).isSome

instance (e : TaxTableEntry) : Decidable (entryComplete e) := by
  unfold entryComplete; infer_instance

/-- The entry is an IVA/PT entry. -/
def isIvaPt (e : TaxTableEntry) : Prop :=
  _ftext e.taxType = some "IVA" ∧ _ftext e.taxCountryRegion = some "PT"

instance (e : TaxTableEntry) : Decidable (isIvaPt e) := by
  unfold isIvaPt; infer_instance

/-- Entry tax code (blank when missing; only used under completeness). -/
def ecode (e : TaxTableEntry) : String := (_ftext e.taxCode).getD ""

/-- Entry percentage, parsed as `float` does. -/
def eperc (e : TaxTableEntry) : Option ℚ := (_ftext e.taxPercentage).bind pyFloat

/-- The `vistos` dictionary: lookup returns the most recent insertion. -/
def lookupV (v : List (String × ℚ)) (c : String) : Option ℚ :=
  ((v.find? fun p => p.1 == c).map Prod.snd)

/-- Errors the `validar_tax_table` loop body appends for one entry given
the current `vistos` dictionary. -/
def entryErrs (v : List (String × ℚ)) (e : TaxTableEntry) : List String :=
  if ¬ entryComplete e then ["TaxTableEntry incompleto."]
  else if ¬ isIvaPt e then []
  else
    match eperc e with
    | none => ["IVA " ++ ecode e ++ ": TaxPercentage inválido."]
    | some q =>
      match IVA_REGRAS (ecode e) with
      | none => ["IVA TaxCode desconhecido: " ++ ecode e ++ "."]
      | some ref =>
        (if |q - ref| > 1 / 1000 then ["IVA " ++ ecode e ++ ": TaxPercentage inválido."] else [])
          ++ (match lookupV v (ecode e) with
              | some q0 => if q0 ≠ q then ["IVA " ++ ecode e ++ ": duplicado com percentagens diferentes."] else []
              | none => [])

/-- The `vistos` dictionary after the loop body for one entry: recorded
exactly when the entry is complete, IVA/PT, parseable and known-coded. -/
def entryVist (v : List (String × ℚ)) (e : TaxTableEntry) : List (String × ℚ) :=
  if entryComplete e ∧ isIvaPt e then
    match eperc e with
    | none => v
    | some q => match IVA_REGRAS (ecode e) with
      | none => v
      | some _ => (ecode e, q) :: v
  else v

/-- The `for entry in entries` loop of `validar_tax_table`. -/
def taxLoop : List TaxTableEntry → List (String × ℚ) → List String
  | [], _ => []
  | e :: rest, v => entryErrs v e ++ taxLoop rest (entryVist v e)

/-- `validar_tax_table`: missing table / empty table errors, else the
entry loop starting from an empty `vistos` dictionary. -/
def validar_tax_table (taxTable : Option (List TaxTableEntry)) (errors : List String) :
    List String :=
  match taxTable with
  | none => errors ++ ["TaxTable em falta."]
  | some entries =>
    if entries.isEmpty then errors ++ ["TaxTable sem TaxTableEntry."]
    else errors ++ taxLoop entries []

/-! ## Pass 3: sales invoice totals -/

/-- The per-invoice body of `validar_sales_invoices`. -/
def salesInvoiceErrors (inv : SalesInvoice) : List String :=
  match _ftext inv.invoiceNo, inv.documentTotals with
  | none, _ => ["Invoice incompleta."]
  | some _, none => ["Invoice incompleta."]
  | some invNo, some tot =>
    match _float tot.netTotal, _float tot.taxPayable, _float tot.grossTotal with
    | some net, some tax, some gross =>
      if |(net + tax) - gross| > 1 / 100 then ["Invoice " ++ invNo ++ ": GrossTotal incoerente."]
      else []
    | _, _, _ => ["Invoice " ++ invNo ++ ": totais inválidos."]

/-- `validar_sales_invoices` over the whole `SalesInvoices` section. -/
def validar_sales_invoices (sales : Option (List SalesInvoice)) (errors : List String) :
    List String :=
  match sales with
  | none => errors ++ ["SalesInvoices em falta."]
  | some invoices =>
    if invoices.isEmpty then errors ++ ["SalesInvoices sem Invoice."]
    else errors ++ invoices.flatMap salesInvoiceErrors

/-! ## Pass 4: ATCUD / Hash on sales invoices -/

/-- The cut-off date `datetime(2023, 1, 1).date()`. -/
def atcudCutoff : PyDate := ⟨2023, 1, 1⟩

/-- The ATCUD block of the per-invoice body: active only from the
cut-off date on; absent or non-matching ATCUD yields the error. -/
def atcudPartErrors (invNo : String) (d : PyDate) (atcud : Option String) : List String :=
  if dateLeB atcudCutoff d then
    match _ftext atcud with
    | none => ["Invoice " ++ invNo ++ ": ATCUD inválido ou em falta."]
    | some a =>
      if atcudMatch a then [] else ["Invoice " ++ invNo ++ ": ATCUD inválido ou em falta."]
  else []

/-- The Hash/HashControl block of the per-invoice body: a missing `Hash`
short-circuits (`continue`); a `Hash` other than `"0"` requires a numeric
`HashControl`. -/
def hashPartErrors (invNo : String) (hash hashControl : Option String) : List String :=
  match _ftext hash with
  | none => ["Invoice " ++ invNo ++ ": Hash em falta."]
  | some h =>
    if h ≠ "0" then
      match _ftext hashControl with
      | none => ["Invoice " ++ invNo ++ ": HashControl inválido."]
      | some hc =>
        if hashControlNumeric hc then [] else ["Invoice " ++ invNo ++ ": HashControl inválido."]
    else []

/-- The per-invoice body of `validar_atcud_hash_sales_invoices`.
Mirrors the source's `continue` structure: a missing or unparseable
`InvoiceDate` short-circuits the invoice; the ATCUD check and the
Hash/HashControl checks both run on a dated invoice. -/
def atcudHashInvoiceErrors (inv : SalesInvoice) : List String :=
  let invNo := (_ftext inv.invoiceNo).getD "<sem InvoiceNo>"
  match _ftext inv.invoiceDate with
  | none => ["Invoice " ++ invNo ++ ": InvoiceDate em falta."]
  | some ds =>
    match fromisoformat ds with
    | none => ["Invoice " ++ invNo ++ ": InvoiceDate inválido."]
    | some d =>
      atcudPartErrors invNo d inv.atcud ++ hashPartErrors invNo inv.hash inv.hashControl

/-- `validar_atcud_hash_sales_invoices` over the section (silently
returns when `SalesInvoices` is absent). -/
def validar_atcud_hash_sales_invoices (sales : Option (List SalesInvoice))
    (errors : List String) : List String :=
  match sales with
  | none => errors
  | some invoices => errors ++ invoices.flatMap atcudHashInvoiceErrors

/-! ## OCR side: `_parse_money` -/

/-- Case-sensitive "starts with" on character lists. -/
def startsWith : List Char → List Char → Bool
  | [], _ => true
  | _ :: _, [] => false
  | p :: ps, c :: cs => p == c && startsWith ps cs

/-- Python `str.replace(pat, "")` for a non-empty pattern: left-to-right
non-overlapping removal (fueled structural recursion). -/
def removeSub : Nat → List Char → List Char → List Char
  | 0, _, l => l
  | fuel + 1, pat, l =>
    if startsWith pat l then removeSub fuel pat (l.drop pat.length)
    else
      match l with
      | [] => []
      | c :: rest => c :: removeSub fuel pat rest

/-- The symbol/space stripping stage of `_parse_money`: strip, remove
every `€`, every `EUR` substring, every space. -/
def moneyClean (s : String) : List Char :=
  let v := trimChars s.data
  let v := v.filter (fun c => c != '€')
  let v := removeSub v.length "EUR".data v
  v.filter (fun c => c != ' ')

/-- `_parse_money` from `app.py`: strip symbols and spaces; with both `.`
and `,` present drop the dots; turn commas into decimal points; then
`float`, with `none` as the failure sentinel. -/
def _parse_money (s : String) : Option ℚ :=
  if s = "" then none
  else
    let v := moneyClean s
    let v := if v.contains ',' && v.contains '.' then v.filter (fun c => c != '.') else v
    let v := v.map (fun c => if c == ',' then '.' else c)
    pyFloat ⟨v⟩

/-! ## OCR side: rounding and 2-decimal formatting -/

/-- Round to the nearest integer, ties to even (Python `round`). -/
def roundHalfEven (x : ℚ) : ℤ :=
  let n := ⌊x⌋
  let f := x - (n : ℚ)
  if f < 1 / 2 then n
  else if 1 / 2 < f then n + 1
  else if n % 2 = 0 then n else n + 1

/-- Python `round(x, 2)`. -/
def pyRound2 (q : ℚ) : ℚ := (roundHalfEven (q * 100) : ℚ) / 100

/-- Decimal digits of a natural number (fueled structural recursion). -/
def natDigits : Nat → Nat → List Char
  | 0, _ => []
  | fuel + 1, n =>
    if n < 10 then [Char.ofNat (48 + n)]
    else natDigits fuel (n / 10) ++ [Char.ofNat (48 + n % 10)]

def natStr (n : Nat) : List Char := natDigits (n + 1) n

def pad2 (n : Nat) : List Char := if n < 10 then '0' :: natStr n else natStr n

/-- `f"{x:.2f}".replace(".", ",")` for a value that is a multiple of
`1/100` (which `round(x, 2)` guarantees on exactly-represented inputs). -/
def formatComma2 (q : ℚ) : String :=
  let n : ℤ := ⌊q * 100⌋
  let m := n.natAbs
  let s := natStr (m / 100) ++ ',' :: pad2 (m % 100)
  ⟨if n < 0 then '-' :: s else s⟩

/-! ## OCR side: extracted fields, base inference, coherence check -/

/-- An `ExtractedField` as built by `_field` in `app.py`. -/
structure OcrField where
  label : String
  value : String
  status : String
  note : String
deriving DecidableEq, Repr

/-- `_field`: absent/empty values render as an em dash, a missing note as
the empty string. -/
def _field (label : String) (value : Option String) (status : String) (note : Option String) :
    OcrField :=
  { label := label,
    value := match value with
      | some v => if v = "" then "—" else v
      | none => "—",
    status := status,
    note := match note with
      | some s => s
      | none => "" }

def inferredNoteText : String := "Base inferida por Total - IVA (não extraída diretamente)."

/-- The base-inference block of `purchase_pdf` (app.py lines 566-573):
when Base is absent but IVA and TOTAL parse with TOTAL ≥ IVA, Base
becomes `TOTAL − IVA` rounded to 2 decimals and comma-formatted, and the
explanatory note is set. Returns the new `base_s` and `inferred_note`. -/
def inferBase (base_s iva_s total_s : Option String) : Option String × Option String :=
  if (pyNot base_s || base_s == some "—") && !pyNot iva_s && !pyNot total_s then
    match iva_s, total_s with
    | some ivs, some tvs =>
      (match _parse_money ivs, _parse_money tvs with
       | some iv, some tv =>
         if iv ≤ tv then (some (formatComma2 (pyRound2 (tv - iv))), some inferredNoteText)
         else (base_s, none)
       | _, _ => (base_s, none))
    | _, _ => (base_s, none)
  else (base_s, none)

/-- The `"base"` entry of the `invoice` map (app.py line 588). -/
def mkBaseField (base_s : Option String) (note : Option String) : OcrField :=
  _field "Base tributável / Valor Base" base_s
    (if !pyNot note then "inferido" else if !pyNot base_s then "ok" else "warn") note

/-- `_parse_money(x) if x else None`, the guarded parses feeding the
coherence check. -/
def parseIfTruthy (o : Option String) : Option ℚ :=
  match o with
  | none => none
  | some s => if s = "" then none else _parse_money s

def coherenceIncoherent : String := "Totais incoerentes: Base + IVA ≠ Total (ou OCR leu mal)."

def coherenceConfidence : String := "Totais/IVA não foram extraídos com confiança (layout/scan)."

/-- The totals coherence check of `purchase_pdf` (app.py lines 597-606):
the errors it appends for one run. -/
def coherence_errors (base_s iva_s total_s : Option String) : List String :=
  match parseIfTruthy base_s, parseIfTruthy iva_s, parseIfTruthy total_s with
  | some b, some i, some t => if |(b + i) - t| > 5 / 100 then [coherenceIncoherent] else []
  | _, _, _ => [coherenceConfidence]

/-! ## OCR side: `_extract_totals` and its regex scans

The regular-expression searches of `_extract_totals` are hand-compiled:
`_money_re` is the alternation `[0-9]{1,3}(\.[0-9]{3})*,[0-9]{2}` /
`[0-9]+,[0-9]{2}` / `[0-9]+\.[0-9]{2}` tried in that order at each
position left to right (Python's leftmost, first-alternative semantics),
and the surrounding patterns are matched piecewise with `\b` word
boundaries and greedy `\s*` runs. -/

def isWordChar (c : Char) : Bool := c.isAlphanum || c == '_'

/-- `\b` before the match position: start of string or a non-word char. -/
def boundaryBefore (prev : Option Char) : Bool :=
  match prev with
  | none => true
  | some c => !isWordChar c

/-- Case-insensitive "starts with" (the pattern is given lowercase). -/
def startsWithCI : List Char → List Char → Bool
  | [], _ => true
  | _ :: _, [] => false
  | p :: ps, c :: cs => c.toLower == p && startsWithCI ps cs

/-- `,dd` (or the given separator) finishing a money match. -/
def b1Finish (l : List Char) : Option (List Char) :=
  match l with
  | ',' :: a :: b :: _ => if a.isDigit && b.isDigit then some [',', a, b] else none
  | _ => none

/-- The greedy `(\.[0-9]{3})*` of the first money alternative, with
backtracking to the `,dd` finish. -/
def b1Star : Nat → List Char → Option (List Char)
  | 0, l => b1Finish l
  | fuel + 1, l =>
    match l with
    | '.' :: a :: b :: c :: rest =>
      if a.isDigit && b.isDigit && c.isDigit then
        match b1Star fuel rest with
        | some m => some ('.' :: a :: b :: c :: m)
        | none => b1Finish l
      else b1Finish l
    | _ => b1Finish l

/-- Money alternative 1: `[0-9]{1,3}(\.[0-9]{3})*,[0-9]{2}`. -/
def tryB1 (l : List Char) : Option (List Char) :=
  let ds := l.takeWhile Char.isDigit
  if 1 ≤ ds.length ∧ ds.length ≤ 3 then
    match b1Star l.length (l.drop ds.length) with
    | some m => some (ds ++ m)
    | none => none
  else none

/-- Money alternatives 2/3: `[0-9]+sep[0-9]{2}` for `sep` = `,` or `.`. -/
def tryB2sep (sep : Char) (l : List Char) : Option (List Char) :=
  let ds := l.takeWhile Char.isDigit
  if ds.isEmpty then none
  else
    match l.drop ds.length with
    | c :: a :: b :: _ =>
      if c == sep && a.isDigit && b.isDigit then some (ds ++ [sep, a, b]) else none
    | _ => none

/-- `_money_re` anchored at the current position. -/
def tryMoney (l : List Char) : Option (List Char) :=
  match tryB1 l with
  | some m => some m
  | none =>
    match tryB2sep ',' l with
    | some m => some m
    | none => tryB2sep '.' l

/-- Leftmost `_money_re` match anywhere in the list. -/
def searchMoney : List Char → Option (List Char)
  | [] => none
  | c :: rest =>
    match tryMoney (c :: rest) with
    | some m => some m
    | none => searchMoney rest

/-- Scan a list position by position, keeping track of the previous
character for `\b` tests, returning the first successful attempt. -/
def scanLineAux {α : Type} (attempt : Option Char → List Char → Option α) :
    Option Char → List Char → Option α
  | _, [] => none
  | prev, c :: rest =>
    match attempt prev (c :: rest) with
    | some m => some m
    | none => scanLineAux attempt (some c) rest

/-- `\bTOTAL\b` (case-sensitive gate) at the current position. -/
def attemptTotalCS (prev : Option Char) (l : List Char) : Option Unit :=
  if boundaryBefore prev && startsWith "TOTAL".data l &&
      (match l.drop 5 with | [] => true | c :: _ => !isWordChar c) then some () else none

def hasTotalToken (l : List Char) : Bool := (scanLineAux attemptTotalCS none l).isSome

/-- `\bTOTAL\b.*?money` (case-insensitive) at the current position:
the lazy gap makes the group the leftmost money after the token. -/
def attemptTotalCI (prev : Option Char) (l : List Char) : Option (List Char) :=
  if boundaryBefore prev && startsWithCI "total".data l &&
      (match l.drop 5 with | [] => true | c :: _ => !isWordChar c) then
    searchMoney (l.drop 5)
  else none

def searchTotalMoneyCI (l : List Char) : Option (List Char) :=
  scanLineAux attemptTotalCI none l

/-- `\bValor\s*Base\s*:\s*money` (case-insensitive) at the position. -/
def attemptValorBase (prev : Option Char) (l : List Char) : Option (List Char) :=
  if boundaryBefore prev && startsWithCI "valor".data l then
    let r1 := (l.drop 5).dropWhile Char.isWhitespace
    if startsWithCI "base".data r1 then
      match (r1.drop 4).dropWhile Char.isWhitespace with
      | ':' :: r3 => tryMoney (r3.dropWhile Char.isWhitespace)
      | _ => none
    else none
  else none

/-- `\bIVA\s*:\s*money` (case-insensitive) at the position. -/
def attemptIvaLine (prev : Option Char) (l : List Char) : Option (List Char) :=
  if boundaryBefore prev && startsWithCI "iva".data l then
    match (l.drop 3).dropWhile Char.isWhitespace with
    | ':' :: r2 => tryMoney (r2.dropWhile Char.isWhitespace)
    | _ => none
  else none

/-- `Incid[êe]ncia` at the position, returning the remainder after it. -/
def attemptIncid (_prev : Option Char) (l : List Char) : Option (List Char) :=
  if startsWithCI "incid".data l then
    match l.drop 5 with
    | c :: r =>
      if (c.toLower == 'ê' || c.toLower == 'e') && startsWithCI "ncia".data r then
        some (r.drop 4)
      else none
    | [] => none
  else none

/-- Case-insensitive substring test. -/
def containsCI (pat : List Char) (l : List Char) : Bool :=
  (scanLineAux (fun _ r => if startsWithCI pat r then some () else none) none l).isSome

/-- `.*Valor\s*IVA` after the breakdown keyword. -/
def containsValorIva (l : List Char) : Bool :=
  (scanLineAux
    (fun _ r =>
      if startsWithCI "valor".data r &&
          startsWithCI "iva".data ((r.drop 5).dropWhile Char.isWhitespace) then some ()
      else none) none l).isSome

/-- The tax-breakdown table header test
(`Incid[êe]ncia.*Valor\s*IVA` or `Incid[êe]ncia.*Taxa`, case-insensitive). -/
def isBreakHeader (ln : String) : Bool :=
  match scanLineAux attemptIncid none ln.data with
  | some r => containsValorIva r || containsCI "taxa".data r
  | none => false

/-- `^\s*money\s+money\s+money` on one candidate row line. -/
def attemptRow (l : List Char) : Option (List Char × List Char × List Char) :=
  let r0 := l.dropWhile Char.isWhitespace
  match tryMoney r0 with
  | none => none
  | some m1 =>
    let r1 := r0.drop m1.length
    let w1 := r1.takeWhile Char.isWhitespace
    if w1.isEmpty then none
    else
      match tryMoney (r1.drop w1.length) with
      | none => none
      | some m2 =>
        let r2 := (r1.drop w1.length).drop m2.length
        let w2 := r2.takeWhile Char.isWhitespace
        if w2.isEmpty then none
        else
          match tryMoney (r2.drop w2.length) with
          | none => none
          | some m3 => some (m1, m2, m3)

/-- First matching row in the up-to-5-line window (the inner `break`). -/
def firstRow : List String → Option (List Char × List Char × List Char)
  | [] => none
  | ln :: rest =>
    match attemptRow ln.data with
    | some r => some r
    | none => firstRow rest

/-- Python `a or b` for an optional current value and a fresh match. -/
def pyOrV (a : Option String) (s : String) : Option String :=
  match a with
  | some x => if x = "" then some s else some x
  | none => some s

/-- The breakdown-table scan of `_extract_totals`: each header line looks
at the next up to 5 lines for a money row; found values never overwrite
already-found ones (`base = base or ...`); the outer loop continues. -/
def breakdownScan :
    List String → Option String × Option String × Option String →
      Option String × Option String × Option String
  | [], acc => acc
  | ln :: rest, (b, t, i) =>
    if isBreakHeader ln then
      match firstRow (rest.take 5) with
      | some (m1, m2, m3) => breakdownScan rest (pyOrV b ⟨m1⟩, pyOrV t ⟨m2⟩, pyOrV i ⟨m3⟩)
      | none => breakdownScan rest (b, t, i)
    else breakdownScan rest (b, t, i)

/-- `TOTAL\s*\(Euros\)\s*money` (case-insensitive, no `\b`). -/
def attemptTotalEuros (_prev : Option Char) (l : List Char) : Option (List Char) :=
  if startsWithCI "total".data l then
    match (l.drop 5).dropWhile Char.isWhitespace with
    | '(' :: r2 =>
      if startsWithCI "euros".data r2 then
        match r2.drop 5 with
        | ')' :: r3 => tryMoney (r3.dropWhile Char.isWhitespace)
        | _ => none
      else none
    | _ => none
  else none

/-- `\bIVA\s*(?:23%|23)\b.*?money` (case-insensitive): the `23%`
alternative needs a word char after `%` for its `\b`; otherwise the `23`
alternative applies when a non-word char (such as `%`) follows. -/
def attemptIva23 (prev : Option Char) (l : List Char) : Option (List Char) :=
  if boundaryBefore prev && startsWithCI "iva".data l then
    match (l.drop 3).dropWhile Char.isWhitespace with
    | '2' :: '3' :: r2 =>
      (match r2 with
       | '%' :: c :: r3 =>
         if isWordChar c then searchMoney (c :: r3) else searchMoney ('%' :: c :: r3)
       | ['%'] => searchMoney ['%']
       | c :: r3 => if isWordChar c then none else searchMoney (c :: r3)
       | [] => none)
    | _ => none
  else none

/-- The result record of `_extract_totals`. -/
structure Totals where
  base : Option String
  iva : Option String
  total : Option String
  taxa : Option String
deriving DecidableEq, Repr

/-- `_extract_totals` from `app.py`: the TOTAL line loop (later matches
overwrite), the `TOTAL (Euros)` fallback, the labelled Base/IVA line loop
(later matches overwrite), the breakdown-table scan (never overwrites),
and the `IVA 23` last-resort fallback. -/
def _extract_totals (lines : List String) (text_norm : String) : Totals :=
  let total := lines.foldl
    (fun acc ln =>
      if hasTotalToken ln.data then
        match searchTotalMoneyCI ln.data with
        | some m => some (⟨m⟩ : String)
        | none => acc
      else acc) none
  let total :=
    if pyNot total then
      match scanLineAux attemptTotalEuros none text_norm.data with
      | some m => some (⟨m⟩ : String)
      | none => total
    else total
  let bi := lines.foldl
    (fun (bi : Option String × Option String) ln =>
      let b := match scanLineAux attemptValorBase none ln.data with
        | some m => some (⟨m⟩ : String)
        | none => bi.1
      let i := match scanLineAux attemptIvaLine none ln.data with
        | some m => some (⟨m⟩ : String)
        | none => bi.2
      (b, i)) (none, none)
  let bti := breakdownScan lines (bi.1, none, bi.2)
  let iva :=
    if pyNot bti.2.2 then
      match scanLineAux attemptIva23 none text_norm.data with
      | some m => some (⟨m⟩ : String)
      | none => bti.2.2
    else bti.2.2
  { base := bti.1, iva := iva, total := total, taxa := bti.2.1 }

/-- The per-line TOTAL matcher (gate plus group), for stating C10. -/
def mTot (ln : String) : Option String :=
  if hasTotalToken ln.data then (searchTotalMoneyCI ln.data).map (fun m => (⟨m⟩ : String))
  else none

/-- The per-line `Valor Base:` matcher, for stating C10. -/
def mBase (ln : String) : Option String :=
  (scanLineAux attemptValorBase none ln.data).map (fun m => (⟨m⟩ : String))

/-- The per-line `IVA:` matcher, for stating C10. -/
def mIva (ln : String) : Option String :=
  (scanLineAux attemptIvaLine none ln.data).map (fun m => (⟨m⟩ : String))

/-- One step of a fold that overwrites its accumulator whenever the
matcher fires (the shape of the TOTAL / Base / IVA line loops). -/
def owStep {α β : Type} (f : α → Option β) (acc : Option β) (x : α) : Option β :=
  match f x with
  | some v => some v
  | none => acc

/-- The spec's per-entry tax-table condition (C4): the IVA/PT entry's
percentage parses and equals the reference value within 0.001. -/
def okRef (e : TaxTableEntry) : Prop :=
  ∃ q r, eperc e = some q ∧ IVA_REGRAS (ecode e) = some r ∧ |q - r| ≤ 1 / 1000

/-- The spec's duplication condition (C4): no code appears on two IVA/PT
entries with differing percentages. -/
def noConflict (l : List TaxTableEntry) : Prop :=
  ∀ e1 ∈ l, ∀ e2 ∈ l, isIvaPt e1 → isIvaPt e2 → ecode e1 = ecode e2 → eperc e1 = eperc e2

/-- Compatibility of the incoming `vistos` dictionary with a list of
entries (the loop invariant for C4). -/
def vCompat (v : List (String × ℚ)) (l : List TaxTableEntry) : Prop :=
  ∀ e ∈ l, isIvaPt e → ∀ q q2, eperc e = some q → lookupV v (ecode e) = some q2 → q = q2

/-! ## Helper lemmas -/

theorem strData_append (a b : String) : (a ++ b).data = a.data ++ b.data := rfl

/-- Two error messages with the same `"Invoice " ++ invNo` prefix differ
whenever their fixed suffixes differ. -/
theorem msg_ne_of_suffix_ne (p n s1 s2 : String) (h : ¬ s1.data = s2.data) :
    p ++ n ++ s1 ≠ p ++ n ++ s2 := by
  intro he
  apply h
  have hd := congrArg String.data he
  rw [strData_append, strData_append, strData_append, strData_append] at hd
  exact List.append_cancel_left hd

/-- A fold that overwrites its accumulator on every match returns the
last match when there is one. -/
theorem foldl_overwrite {α β : Type} (f : α → Option β) (l : List α) (init : Option β) :
    l.foldl (owStep f) init = ((l.filterMap f).getLast?).elim init some := by
  induction l generalizing init with
  | nil => simp
  | cons x xs ih =>
    simp only [List.foldl_cons, List.filterMap_cons]
    cases hfx : f x with
    | none =>
      rw [show owStep f init x = init from by unfold owStep; rw [hfx], ih]
    | some v =>
      rw [show owStep f init x = some v from by unfold owStep; rw [hfx], ih]
      cases hxs : (xs.filterMap f).getLast? with
      | none =>
        have hnil : xs.filterMap f = [] := by
          cases h : xs.filterMap f with
          | nil => rfl
          | cons a as => rw [h] at hxs; simp [List.getLast?] at hxs
        simp [hnil]
      | some w =>
        have hne : xs.filterMap f ≠ [] := by
          intro h; rw [h] at hxs; simp at hxs
        rcases List.exists_cons_of_ne_nil hne with ⟨a, as, hcons⟩
        rw [hcons, List.getLast?_cons_cons, ← hcons, hxs]
        rfl

/-- `takeWhile` stops exactly at the first failing character. -/
theorem takeWhile_all_append (p : Char → Bool) (ip : List Char) (c : Char) (fp : List Char)
    (hip : ip.all p = true) (hc : p c = false) :
    (ip ++ c :: fp).takeWhile p = ip := by
  induction ip with
  | nil => simp [List.takeWhile, hc]
  | cons x xs ih =>
    simp only [List.all_cons, Bool.and_eq_true] at hip
    simp [List.takeWhile, hip.1, ih hip.2]

/-- `takeWhile` keeps a list all of whose elements satisfy the predicate. -/
theorem takeWhile_all (p : Char → Bool) (ip : List Char) (hip : ip.all p = true) :
    ip.takeWhile p = ip := by
  induction ip with
  | nil => rfl
  | cons x xs ih =>
    simp only [List.all_cons, Bool.and_eq_true] at hip
    simp [List.takeWhile, hip.1, ih hip.2]

/-- Evaluation of `parseDecimalCore` on `digits.digits`. -/
theorem parseDecimalCore_dot (ip fp : List Char)
    (hip : ip.all Char.isDigit = true) (hfp : fp.all Char.isDigit = true)
    (hne : ip.isEmpty = false) :
    parseDecimalCore (ip ++ '.' :: fp)
      = some ((digitsVal ip : ℚ) + (digitsVal fp : ℚ) / 10 ^ fp.length) := by
  have h1 : (ip ++ '.' :: fp).takeWhile Char.isDigit = ip :=
    takeWhile_all_append _ _ _ _ hip (by decide)
  simp only [parseDecimalCore, h1, List.drop_left]
  rw [hfp, hne]
  simp

/-- Evaluation of `parseDecimalCore` on a plain digit string. -/
theorem parseDecimalCore_int (ip : List Char)
    (hip : ip.all Char.isDigit = true) (hne : ip.isEmpty = false) :
    parseDecimalCore ip = some (digitsVal ip : ℚ) := by
  have h1 : ip.takeWhile Char.isDigit = ip := takeWhile_all _ _ hip
  simp only [parseDecimalCore, h1, List.drop_length]
  rw [hne]
  simp

/-- `pyFloat` falls through to the unsigned branch when the trimmed input
does not start with a sign. -/
theorem pyFloat_not_sign (s : String) (c : Char) (rest : List Char)
    (hs : trimChars s.data = c :: rest) (h1 : ¬ c = '+') (h2 : ¬ c = '-') :
    pyFloat s = parseDecimalCore (c :: rest) := by
  unfold pyFloat
  rw [hs]
  split
  · next heq => exact absurd (List.head_eq_of_cons_eq heq.symm).symm h1
  · next heq => exact absurd (List.head_eq_of_cons_eq heq.symm).symm h2
  · rfl

/-- Workhorse for concrete `pyFloat` evaluations on `a.b` literals: the
character-level side conditions close by `decide`, the arithmetic by
`norm_num`. -/
theorem pyFloat_dot (s : String) (ip fp : List Char) (a b k : Nat) (q : ℚ)
    (h : trimChars s.data = ip ++ '.' :: fp)
    (hip : ip.all Char.isDigit = true) (hfp : fp.all Char.isDigit = true)
    (hne : ip.isEmpty = false)
    (ha : digitsVal ip = a) (hb : digitsVal fp = b) (hk : fp.length = k)
    (hq : (a : ℚ) + (b : ℚ) / 10 ^ k = q) :
    pyFloat s = some q := by
  obtain ⟨c, ip2, rfl⟩ : ∃ c ip2, ip = c :: ip2 := by
    cases ip with
    | nil => simp at hne
    | cons c ip2 => exact ⟨c, ip2, rfl⟩
  have hc : c.isDigit = true := by
    simp only [List.all_cons, Bool.and_eq_true] at hip
    exact hip.1
  rw [pyFloat_not_sign s c (ip2 ++ '.' :: fp) (by rw [h, List.cons_append])
    (by intro hcc; rw [hcc] at hc; exact absurd hc (by decide))
    (by intro hcc; rw [hcc] at hc; exact absurd hc (by decide))]
  rw [← List.cons_append, parseDecimalCore_dot _ _ hip hfp hne, ha, hb, hk, hq]

/-- As `pyFloat_dot`, for integer literals. -/
theorem pyFloat_int (s : String) (ip : List Char) (a : Nat) (q : ℚ)
    (h : trimChars s.data = ip)
    (hip : ip.all Char.isDigit = true) (hne : ip.isEmpty = false)
    (ha : digitsVal ip = a) (hq : (a : ℚ) = q) :
    pyFloat s = some q := by
  obtain ⟨c, ip2, rfl⟩ : ∃ c ip2, ip = c :: ip2 := by
    cases ip with
    | nil => simp at hne
    | cons c ip2 => exact ⟨c, ip2, rfl⟩
  have hc : c.isDigit = true := by
    simp only [List.all_cons, Bool.and_eq_true] at hip
    exact hip.1
  rw [pyFloat_not_sign s c ip2 h
    (by intro hcc; rw [hcc] at hc; exact absurd hc (by decide))
    (by intro hcc; rw [hcc] at hc; exact absurd hc (by decide))]
  rw [parseDecimalCore_int _ hip hne, ha, hq]

/-- `_parse_money` reduced to `pyFloat` of the cleaned character list. -/
theorem parse_money_eq_pyFloat (s : String) (v : List Char)
    (hs : ¬ s = "")
    (hv : ((if (moneyClean s).contains ',' && (moneyClean s).contains '.'
            then (moneyClean s).filter (fun c => c != '.') else moneyClean s).map
              (fun c => if c == ',' then '.' else c)) = v) :
    _parse_money s = pyFloat ⟨v⟩ := by
  unfold _parse_money
  rw [if_neg hs]
  simp only []
  rw [hv]

/-- `_float` on a present element. -/
theorem float_of_text (el : Option String) (s : String) (q : ℚ)
    (hel : _ftext el = some s) (h : pyFloat s = some q) : _float el = some q := by
  unfold _float
  rw [hel, Option.some_bind, h]

/-- `parseIfTruthy` on a present non-empty string. -/
theorem parseIfTruthy_some (s : String) (q : ℚ) (hs : ¬ s = "")
    (h : _parse_money s = some q) : parseIfTruthy (some s) = some q := by
  have he : parseIfTruthy (some s) = if s = "" then none else _parse_money s := rfl
  rw [he, if_neg hs, h]

/-! ## The claims -/

/-- C9: a document with no `Header` element gets exactly one error from
the header pass, none at all from the date-consistency and header-NIF
passes, and the three passes chained over the same accumulator produce
just that one error. -/
theorem C9_missing_header_terminal (errors : List String) :
    validar_header none errors = errors ++ ["Header em falta."] ∧
    validar_datas none errors = errors ∧
    validar_nif none errors = errors ∧
    validar_nif none (validar_datas none (validar_header none errors))
      = errors ++ ["Header em falta."] :=
  ⟨rfl, rfl, rfl, rfl⟩

/-- C7: the OCR coherence check raises the totals-incoherence error iff
all three amounts parse and miss by more than 0.05, raises the
extraction-confidence error iff some amount fails to parse, and never
raises both in one run. -/
theorem C7_coherence_exclusive (base_s iva_s total_s : Option String) :
    (∀ b i t, parseIfTruthy base_s = some b → parseIfTruthy iva_s = some i →
      parseIfTruthy total_s = some t →
      coherence_errors base_s iva_s total_s
        = if |(b + i) - t| > 5 / 100 then [coherenceIncoherent] else []) ∧
    ((parseIfTruthy base_s = none ∨ parseIfTruthy iva_s = none ∨
        parseIfTruthy total_s = none) →
      coherence_errors base_s iva_s total_s = [coherenceConfidence]) ∧
    ¬ (coherenceIncoherent ∈ coherence_errors base_s iva_s total_s ∧
        coherenceConfidence ∈ coherence_errors base_s iva_s total_s) := by
  have hne : coherenceIncoherent ≠ coherenceConfidence := by decide
  have hshape : coherence_errors base_s iva_s total_s = [] ∨
      coherence_errors base_s iva_s total_s = [coherenceIncoherent] ∨
      coherence_errors base_s iva_s total_s = [coherenceConfidence] := by
    unfold coherence_errors
    cases parseIfTruthy base_s <;> cases parseIfTruthy iva_s <;>
        cases parseIfTruthy total_s <;>
      try exact Or.inr (Or.inr rfl)
    rename_i b i t
    by_cases habs : |(b + i) - t| > 5 / 100
    · right; left
      show (if |(b + i) - t| > 5 / 100 then [coherenceIncoherent] else []) = [coherenceIncoherent]
      rw [if_pos habs]
    · left
      show (if |(b + i) - t| > 5 / 100 then [coherenceIncoherent] else []) = []
      rw [if_neg habs]
  refine ⟨?_, ?_, ?_⟩
  · intro b i t hb hi ht
    unfold coherence_errors
    rw [hb, hi, ht]
  · intro h
    unfold coherence_errors
    rcases h with h | h | h <;> rw [h] <;>
      cases parseIfTruthy base_s <;> cases parseIfTruthy iva_s <;>
      cases parseIfTruthy total_s <;> rfl
  · rintro ⟨h1, h2⟩
    rcases hshape with h | h | h
    · rw [h] at h1
      simp at h1
    · rw [h] at h2
      simp at h2
      exact hne h2.symm
    · rw [h] at h1
      simp at h1
      exact hne h1

/-- C7 witness: a coherent parse triple raises nothing; a missing Base
raises only the confidence error. -/
theorem C7_coherence_exclusive_witness :
    coherence_errors (some "100,00") (some "23,00") (some "123,00") = [] ∧
    coherence_errors none (some "23,00") (some "123,00") = [coherenceConfidence] := by
  have p100 : parseIfTruthy (some "100,00") = some 100 :=
    parseIfTruthy_some _ _ (by decide)
      (by
        rw [parse_money_eq_pyFloat "100,00" ['1', '0', '0', '.', '0', '0'] (by decide) (by decide)]
        exact pyFloat_dot _ ['1', '0', '0'] ['0', '0'] 100 0 2 _ (by decide) (by decide)
          (by decide) (by decide) (by decide) (by decide) (by decide) (by norm_num))
  have p23 : parseIfTruthy (some "23,00") = some 23 :=
    parseIfTruthy_some _ _ (by decide)
      (by
        rw [parse_money_eq_pyFloat "23,00" ['2', '3', '.', '0', '0'] (by decide) (by decide)]
        exact pyFloat_dot _ ['2', '3'] ['0', '0'] 23 0 2 _ (by decide) (by decide)
          (by decide) (by decide) (by decide) (by decide) (by decide) (by norm_num))
  have p123 : parseIfTruthy (some "123,00") = some 123 :=
    parseIfTruthy_some _ _ (by decide)
      (by
        rw [parse_money_eq_pyFloat "123,00" ['1', '2', '3', '.', '0', '0'] (by decide) (by decide)]
        exact pyFloat_dot _ ['1', '2', '3'] ['0', '0'] 123 0 2 _ (by decide) (by decide)
          (by decide) (by decide) (by decide) (by decide) (by decide) (by norm_num))
  constructor
  · have h := (C7_coherence_exclusive (some "100,00") (some "23,00") (some "123,00")).1
      100 23 123 p100 p23 p123
    rw [h]
    norm_num
  · exact (C7_coherence_exclusive none (some "23,00") (some "123,00")).2.1 (Or.inl rfl)

/-- C5: the money parser on its spot values, and its separator rule: with
both `.` and `,` present after symbol stripping, dots are removed and the
comma becomes the decimal point; with a lone `,`, the comma becomes the
decimal point. -/
theorem C5_parse_money_behaviour :
    _parse_money "1.234,56" = some (123456 / 100 : ℚ) ∧
    _parse_money "1234.56" = some (123456 / 100 : ℚ) ∧
    _parse_money "1234,56" = some (123456 / 100 : ℚ) ∧
    _parse_money "abc" = none ∧
    (∀ s : String, (moneyClean s).contains ',' = true → (moneyClean s).contains '.' = true →
      _parse_money s = pyFloat
        ⟨((moneyClean s).filter (fun c => c != '.')).map (fun c => if c == ',' then '.' else c)⟩) ∧
    (∀ s : String, (moneyClean s).contains ',' = true → (moneyClean s).contains '.' = false →
      _parse_money s = pyFloat ⟨(moneyClean s).map (fun c => if c == ',' then '.' else c)⟩) := by
  have e1 : _parse_money "1.234,56" = some (123456 / 100 : ℚ) := by
    rw [parse_money_eq_pyFloat "1.234,56" ['1', '2', '3', '4', '.', '5', '6']
      (by decide) (by decide)]
    exact pyFloat_dot _ ['1', '2', '3', '4'] ['5', '6'] 1234 56 2 _ (by decide) (by decide)
      (by decide) (by decide) (by decide) (by decide) (by decide) (by norm_num)
  have e2 : _parse_money "1234.56" = some (123456 / 100 : ℚ) := by
    rw [parse_money_eq_pyFloat "1234.56" ['1', '2', '3', '4', '.', '5', '6']
      (by decide) (by decide)]
    exact pyFloat_dot _ ['1', '2', '3', '4'] ['5', '6'] 1234 56 2 _ (by decide) (by decide)
      (by decide) (by decide) (by decide) (by decide) (by decide) (by norm_num)
  have e3 : _parse_money "1234,56" = some (123456 / 100 : ℚ) := by
    rw [parse_money_eq_pyFloat "1234,56" ['1', '2', '3', '4', '.', '5', '6']
      (by decide) (by decide)]
    exact pyFloat_dot _ ['1', '2', '3', '4'] ['5', '6'] 1234 56 2 _ (by decide) (by decide)
      (by decide) (by decide) (by decide) (by decide) (by decide) (by norm_num)
  refine ⟨e1, e2, e3, by decide, ?_, ?_⟩
  · intro s h1 h2
    unfold _parse_money
    by_cases hs : s = ""
    · exfalso
      rw [hs] at h1
      exact absurd h1 (by decide)
    · rw [if_neg hs]
      simp at h1 h2
      simp [h1, h2]
  · intro s h1 h2
    unfold _parse_money
    by_cases hs : s = ""
    · exfalso
      rw [hs] at h1
      exact absurd h1 (by decide)
    · rw [if_neg hs]
      simp at h1 h2
      simp [h1, h2]

/-- C5 witness: the separator rules applied at the spot values. -/
theorem C5_parse_money_behaviour_witness :
    _parse_money "1.234,56" = pyFloat
      ⟨((moneyClean "1.234,56").filter (fun c => c != '.')).map
        (fun c => if c == ',' then '.' else c)⟩ ∧
    _parse_money "1234,56"
      = pyFloat ⟨(moneyClean "1234,56").map (fun c => if c == ',' then '.' else c)⟩ :=
  ⟨C5_parse_money_behaviour.2.2.2.2.1 "1.234,56" (by decide) (by decide),
   C5_parse_money_behaviour.2.2.2.2.2 "1234,56" (by decide) (by decide)⟩

/-- C3: a sales invoice whose three totals parse passes the totals check
(no appended error) iff `|net + tax − gross| ≤ 0.01`. -/
theorem C3_totals_tolerance (inv : SalesInvoice) (invNo : String) (tot : DocTotals)
    (net tax gross : ℚ)
    (hno : _ftext inv.invoiceNo = some invNo)
    (htot : inv.documentTotals = some tot)
    (hnet : _float tot.netTotal = some net)
    (htax : _float tot.taxPayable = some tax)
    (hgross : _float tot.grossTotal = some gross) :
    salesInvoiceErrors inv = [] ↔ |(net + tax) - gross| ≤ 1 / 100 := by
  unfold salesInvoiceErrors
  simp only [hno, htot, hnet, htax, hgross]
  by_cases h : |(net + tax) - gross| > 1 / 100
  · rw [if_pos h]
    constructor
    · intro hc; exact absurd hc (by simp)
    · intro hle; exact absurd h (not_lt.mpr hle)
  · rw [if_neg h]
    exact ⟨fun _ => not_lt.mp h, fun _ => rfl⟩

/-- C3 witness: a 0.01 discrepancy passes, a 0.0101 discrepancy fails. -/
theorem C3_totals_tolerance_witness :
    salesInvoiceErrors
      ⟨some "FA", none, none, none, none, some ⟨some "100.00", some "23.01", some "123.00"⟩⟩
      = [] ∧
    salesInvoiceErrors
      ⟨some "FB", none, none, none, none, some ⟨some "100.00", some "23.0101", some "123.00"⟩⟩
      ≠ [] := by
  have fnetA : _float (some "100.00") = some 100 :=
    float_of_text _ "100.00" _ (by decide)
      (pyFloat_dot _ ['1', '0', '0'] ['0', '0'] 100 0 2 _ (by decide) (by decide)
        (by decide) (by decide) (by decide) (by decide) (by decide) (by norm_num))
  have fgrossA : _float (some "123.00") = some 123 :=
    float_of_text _ "123.00" _ (by decide)
      (pyFloat_dot _ ['1', '2', '3'] ['0', '0'] 123 0 2 _ (by decide) (by decide)
        (by decide) (by decide) (by decide) (by decide) (by decide) (by norm_num))
  have ftaxA : _float (some "23.01") = some (2301 / 100) :=
    float_of_text _ "23.01" _ (by decide)
      (pyFloat_dot _ ['2', '3'] ['0', '1'] 23 1 2 _ (by decide) (by decide)
        (by decide) (by decide) (by decide) (by decide) (by decide) (by norm_num))
  have ftaxB : _float (some "23.0101") = some (230101 / 10000) :=
    float_of_text _ "23.0101" _ (by decide)
      (pyFloat_dot _ ['2', '3'] ['0', '1', '0', '1'] 23 101 4 _ (by decide) (by decide)
        (by decide) (by decide) (by decide) (by decide) (by decide) (by norm_num))
  constructor
  · exact (C3_totals_tolerance _ "FA" _ 100 (2301 / 100) 123 (by decide) rfl
      fnetA ftaxA fgrossA).mpr (by rw [abs_le]; constructor <;> norm_num)
  · intro h
    have := (C3_totals_tolerance _ "FB" _ 100 (230101 / 10000) 123 (by decide) rfl
      fnetA ftaxB fgrossA).mp h
    rw [abs_le] at this
    have h2 := this.2
    norm_num at h2

/-- A dated invoice's pass-4 errors are the ATCUD block followed by the
Hash block. -/
theorem atcudHash_dated (inv : SalesInvoice) (ds : String) (d : PyDate)
    (hds : _ftext inv.invoiceDate = some ds) (hd : fromisoformat ds = some d) :
    atcudHashInvoiceErrors inv
      = atcudPartErrors ((_ftext inv.invoiceNo).getD "<sem InvoiceNo>") d inv.atcud
        ++ hashPartErrors ((_ftext inv.invoiceNo).getD "<sem InvoiceNo>") inv.hash
            inv.hashControl := by
  unfold atcudHashInvoiceErrors
  simp only [hds, hd]

/-- From the cut-off date on, an absent or non-matching ATCUD yields
exactly the ATCUD error. -/
theorem atcudPart_ge (invNo : String) (d : PyDate) (atcud : Option String)
    (hge : dateLeB atcudCutoff d = true)
    (hat : _ftext atcud = none ∨ ∀ a, _ftext atcud = some a → atcudMatch a = false) :
    atcudPartErrors invNo d atcud
      = ["Invoice " ++ invNo ++ ": ATCUD inválido ou em falta."] := by
  unfold atcudPartErrors
  rcases hat with hat | hat
  · simp [hge, hat]
  · cases hA : _ftext atcud with
    | none => simp [hge, hA]
    | some a => simp [hge, hA, hat a hA]

/-- Before the cut-off date the ATCUD block is silent. -/
theorem atcudPart_lt (invNo : String) (d : PyDate) (atcud : Option String)
    (hlt : dateLeB atcudCutoff d = false) : atcudPartErrors invNo d atcud = [] := by
  unfold atcudPartErrors
  simp [hlt]

/-- The Hash block never emits the ATCUD error message. -/
theorem atcud_msg_not_in_hashPart (invNo : String) (hash hashControl : Option String) :
    ("Invoice " ++ invNo ++ ": ATCUD inválido ou em falta.")
      ∉ hashPartErrors invNo hash hashControl := by
  have h1 := msg_ne_of_suffix_ne "Invoice " invNo ": ATCUD inválido ou em falta."
    ": Hash em falta." (by decide)
  have h2 := msg_ne_of_suffix_ne "Invoice " invNo ": ATCUD inválido ou em falta."
    ": HashControl inválido." (by decide)
  unfold hashPartErrors
  cases _ftext hash with
  | none => simp [h1]
  | some h =>
    by_cases h0 : h = "0"
    · simp [h0]
    · cases _ftext hashControl with
      | none => simp [h0, h2]
      | some hc =>
        by_cases hn : hashControlNumeric hc
        · simp [h0, hn]
        · simp [h0, hn, h2]

/-- C2: for a sales invoice with a parseable ISO `InvoiceDate`, if the
date is on or after 2023-01-01 and the ATCUD is absent or fails the
grammar, the pass appends the ATCUD error naming that invoice; if the
date is strictly before 2023-01-01, no ATCUD error is produced. -/
theorem C2_atcud_date_boundary (inv : SalesInvoice) (ds : String) (d : PyDate)
    (hds : _ftext inv.invoiceDate = some ds) (hd : fromisoformat ds = some d) :
    (dateLeB atcudCutoff d = true →
      (_ftext inv.atcud = none ∨ ∀ a, _ftext inv.atcud = some a → atcudMatch a = false) →
      ("Invoice " ++ (_ftext inv.invoiceNo).getD "<sem InvoiceNo>"
          ++ ": ATCUD inválido ou em falta.") ∈ atcudHashInvoiceErrors inv) ∧
    (dateLeB atcudCutoff d = false →
      ("Invoice " ++ (_ftext inv.invoiceNo).getD "<sem InvoiceNo>"
          ++ ": ATCUD inválido ou em falta.") ∉ atcudHashInvoiceErrors inv) := by
  rw [atcudHash_dated inv ds d hds hd]
  constructor
  · intro hge hat
    rw [atcudPart_ge _ d _ hge hat]
    exact List.mem_append_left _ (List.mem_singleton_self _)
  · intro hlt
    rw [atcudPart_lt _ d _ hlt, List.nil_append]
    exact atcud_msg_not_in_hashPart _ _ _

/-- C2 witness: at the boundary, a missing ATCUD is an error on
2023-01-01 and silent on 2022-12-31. -/
theorem C2_atcud_date_boundary_witness :
    ("Invoice " ++ ((_ftext (some "F1")).getD "<sem InvoiceNo>")
        ++ ": ATCUD inválido ou em falta.")
      ∈ atcudHashInvoiceErrors ⟨some "F1", some "2023-01-01", none, some "h", some "1", none⟩ ∧
    ("Invoice " ++ ((_ftext (some "F2")).getD "<sem InvoiceNo>")
        ++ ": ATCUD inválido ou em falta.")
      ∉ atcudHashInvoiceErrors ⟨some "F2", some "2022-12-31", none, some "h", some "1", none⟩ :=
  ⟨(C2_atcud_date_boundary ⟨some "F1", some "2023-01-01", none, some "h", some "1", none⟩
      "2023-01-01" ⟨2023, 1, 1⟩ (by decide) (by decide)).1 (by decide) (Or.inl (by decide)),
   (C2_atcud_date_boundary ⟨some "F2", some "2022-12-31", none, some "h", some "1", none⟩
      "2022-12-31" ⟨2022, 12, 31⟩ (by decide) (by decide)).2 (by decide)⟩

/-- C8 counterexample: an invoice with no fields at all has its blank
`Hash`, yet the pass reports only the missing `InvoiceDate` — the
Hash-missing error is not produced, so the "regardless of the state of
the invoice's other fields" part of the claim fails on the code. -/
theorem C8_counterexample :
    atcudHashInvoiceErrors ⟨none, none, none, none, none, none⟩
        = ["Invoice <sem InvoiceNo>: InvoiceDate em falta."] ∧
    _ftext (⟨none, none, none, none, none, none⟩ : SalesInvoice).hash = none ∧
    ("Invoice <sem InvoiceNo>: Hash em falta.")
      ∉ atcudHashInvoiceErrors ⟨none, none, none, none, none, none⟩ := by
  exact ⟨by decide, by decide, by decide⟩

/-- C8 (amended): for a sales invoice whose `InvoiceDate` is present and
ISO-parseable, a blank or absent `Hash` yields the Hash-missing error
naming the invoice, and a present `Hash` other than the literal `"0"`
with a missing or non-numeric `HashControl` yields the HashControl
error. -/
theorem C8_hash_errors_amended (inv : SalesInvoice) (ds : String) (d : PyDate)
    (hds : _ftext inv.invoiceDate = some ds) (hd : fromisoformat ds = some d) :
    (_ftext inv.hash = none →
      ("Invoice " ++ (_ftext inv.invoiceNo).getD "<sem InvoiceNo>" ++ ": Hash em falta.")
        ∈ atcudHashInvoiceErrors inv) ∧
    (∀ h0, _ftext inv.hash = some h0 → ¬ h0 = "0" →
      (_ftext inv.hashControl = none ∨
        ∀ hc, _ftext inv.hashControl = some hc → hashControlNumeric hc = false) →
      ("Invoice " ++ (_ftext inv.invoiceNo).getD "<sem InvoiceNo>" ++ ": HashControl inválido.")
        ∈ atcudHashInvoiceErrors inv) := by
  rw [atcudHash_dated inv ds d hds hd]
  constructor
  · intro hh
    apply List.mem_append_right
    unfold hashPartErrors
    rw [hh]
    exact List.mem_singleton_self _
  · intro h0 hh hne hctl
    apply List.mem_append_right
    unfold hashPartErrors
    rw [hh]
    rcases hctl with hc | hc
    · simp [hne, hc]
    · cases hC : _ftext inv.hashControl with
      | none => simp [hne, hC]
      | some hcv => simp [hne, hC, hc hcv hC]

/-- C8 witness: a dated invoice with no `Hash` gets the Hash-missing
error; a dated invoice with `Hash="abc"` and `HashControl="xx"` gets the
HashControl error. -/
theorem C8_hash_errors_amended_witness :
    ("Invoice " ++ ((_ftext (some "F3")).getD "<sem InvoiceNo>") ++ ": Hash em falta.")
      ∈ atcudHashInvoiceErrors
          ⟨some "F3", some "2024-05-05", some "AAAAAAAA-1", none, none, none⟩ ∧
    ("Invoice " ++ ((_ftext (some "F4")).getD "<sem InvoiceNo>") ++ ": HashControl inválido.")
      ∈ atcudHashInvoiceErrors
          ⟨some "F4", some "2024-05-05", some "AAAAAAAA-1", some "abc", some "xx", none⟩ :=
  ⟨(C8_hash_errors_amended
      ⟨some "F3", some "2024-05-05", some "AAAAAAAA-1", none, none, none⟩
      "2024-05-05" ⟨2024, 5, 5⟩ (by decide) (by decide)).1 (by decide),
   (C8_hash_errors_amended
      ⟨some "F4", some "2024-05-05", some "AAAAAAAA-1", some "abc", some "xx", none⟩
      "2024-05-05" ⟨2024, 5, 5⟩ (by decide) (by decide)).2 "abc" (by decide) (by decide)
      (Or.inr (fun hc hhc => by
        rw [show _ftext (some "xx") = some "xx" from by decide] at hhc
        cases hhc
        decide))⟩

/-- A string with non-empty character data is not the empty string. -/
theorem mk_ne_empty (l : List Char) (hl : ¬ l = []) : ¬ (⟨l⟩ : String) = "" := by
  intro h
  exact hl (congrArg String.data h)

/-- `formatComma2` never yields the empty string. -/
theorem formatComma2_ne_empty (q : ℚ) : ¬ formatComma2 q = "" := by
  unfold formatComma2
  apply mk_ne_empty
  split
  · exact List.cons_ne_nil _ _
  · intro hh
    rw [List.append_eq_nil] at hh
    exact List.cons_ne_nil _ _ hh.2

/-- `round(x, 2)` on an exact multiple of `1/100` is the identity,
expressed through the scaled integer value. -/
theorem pyRound2_exact (q : ℚ) (n : ℤ) (h : q * 100 = (n : ℚ)) :
    pyRound2 q = (n : ℚ) / 100 := by
  unfold pyRound2 roundHalfEven
  rw [h, Int.floor_intCast]
  norm_num

/-- `formatComma2` through the scaled integer value. -/
theorem formatComma2_exact (q : ℚ) (n : ℤ) (h : q * 100 = (n : ℚ)) (hn : ¬ n < 0) :
    formatComma2 q = ⟨natStr (n.natAbs / 100) ++ ',' :: pad2 (n.natAbs % 100)⟩ := by
  unfold formatComma2
  rw [h, Int.floor_intCast]
  show (⟨if n < 0 then '-' :: (natStr (n.natAbs / 100) ++ ',' :: pad2 (n.natAbs % 100))
        else natStr (n.natAbs / 100) ++ ',' :: pad2 (n.natAbs % 100)⟩ : String) = _
  rw [if_neg hn]

/-- C6: when Base is absent (or the placeholder dash) and IVA and TOTAL
both parse with TOTAL ≥ IVA, the inferred Base is `TOTAL − IVA` rounded
to 2 decimals with a comma decimal separator, the note is set, and the
rendered field carries status `"inferido"` (the code's literal for the
inferred status), that value, and a non-empty note. -/
theorem C6_base_inference (base_s iva_s total_s : Option String) (ivs tvs : String)
    (iv tv : ℚ)
    (hb : pyNot base_s = true ∨ base_s = some "—")
    (hi : iva_s = some ivs) (hins : ¬ ivs = "")
    (ht : total_s = some tvs) (htns : ¬ tvs = "")
    (hpi : _parse_money ivs = some iv) (hpt : _parse_money tvs = some tv)
    (hle : iv ≤ tv) :
    (inferBase base_s iva_s total_s).1 = some (formatComma2 (pyRound2 (tv - iv))) ∧
    (inferBase base_s iva_s total_s).2 = some inferredNoteText ∧
    (mkBaseField (inferBase base_s iva_s total_s).1 (inferBase base_s iva_s total_s).2).status
      = "inferido" ∧
    (mkBaseField (inferBase base_s iva_s total_s).1 (inferBase base_s iva_s total_s).2).note
      = inferredNoteText ∧
    ¬ inferredNoteText = "" ∧
    (mkBaseField (inferBase base_s iva_s total_s).1 (inferBase base_s iva_s total_s).2).value
      = formatComma2 (pyRound2 (tv - iv)) := by
  have hguard :
      ((pyNot base_s || base_s == some "—") && !pyNot iva_s && !pyNot total_s) = true := by
    rcases hb with hb | hb
    · rw [hb]
      simp [pyNot, hi, ht, hins, htns]
    · rw [hb]
      simp [pyNot, hi, ht, hins, htns]
  have hr : inferBase base_s iva_s total_s
      = (some (formatComma2 (pyRound2 (tv - iv))), some inferredNoteText) := by
    unfold inferBase
    rw [if_pos hguard]
    simp only [hi, ht, hpi, hpt]
    rw [if_pos hle]
  rw [hr]
  refine ⟨rfl, rfl, rfl, rfl, by decide, ?_⟩
  show (if formatComma2 (pyRound2 (tv - iv)) = "" then "—"
        else formatComma2 (pyRound2 (tv - iv))) = formatComma2 (pyRound2 (tv - iv))
  rw [if_neg (formatComma2_ne_empty _)]

/-- C6 witness: IVA `"23,00"` and TOTAL `"123,00"` infer Base `"100,00"`
with status `"inferido"` and a non-empty note. -/
theorem C6_base_inference_witness :
    (inferBase none (some "23,00") (some "123,00")).1 = some "100,00" ∧
    (mkBaseField (inferBase none (some "23,00") (some "123,00")).1
        (inferBase none (some "23,00") (some "123,00")).2).status = "inferido" ∧
    (mkBaseField (inferBase none (some "23,00") (some "123,00")).1
        (inferBase none (some "23,00") (some "123,00")).2).value = "100,00" ∧
    ¬ (mkBaseField (inferBase none (some "23,00") (some "123,00")).1
        (inferBase none (some "23,00") (some "123,00")).2).note = "" := by
  have hpi : _parse_money "23,00" = some 23 := by
    rw [parse_money_eq_pyFloat "23,00" ['2', '3', '.', '0', '0'] (by decide) (by decide)]
    exact pyFloat_dot _ ['2', '3'] ['0', '0'] 23 0 2 _ (by decide) (by decide) (by decide)
      (by decide) (by decide) (by decide) (by decide) (by norm_num)
  have hpt : _parse_money "123,00" = some 123 := by
    rw [parse_money_eq_pyFloat "123,00" ['1', '2', '3', '.', '0', '0'] (by decide) (by decide)]
    exact pyFloat_dot _ ['1', '2', '3'] ['0', '0'] 123 0 2 _ (by decide) (by decide) (by decide)
      (by decide) (by decide) (by decide) (by decide) (by norm_num)
  have h := C6_base_inference none (some "23,00") (some "123,00") "23,00" "123,00" 23 123
    (Or.inl rfl) rfl (by decide) rfl (by decide) hpi hpt (by norm_num)
  have hfmt : formatComma2 (pyRound2 ((123 : ℚ) - 23)) = "100,00" := by
    rw [pyRound2_exact ((123 : ℚ) - 23) 10000 (by norm_num)]
    rw [formatComma2_exact _ 10000 (by norm_num) (by norm_num)]
    decide
  exact ⟨by rw [h.1, hfmt], h.2.2.1,
    by rw [h.2.2.2.2.2, hfmt], by rw [h.2.2.2.1]; decide⟩

/-- The concrete sum over weights 9..2 as a fold equals its `map`/`sum`
form. -/
theorem foldl_range8_eq_sum (d : Nat → Nat) :
    (List.range 8).foldl (fun acc i => acc + d i * (9 - i)) 0
      = ((List.range 8).map (fun i => d i * (9 - i))).sum := by
  have h : List.range 8 = [0, 1, 2, 3, 4, 5, 6, 7] := rfl
  rw [h]
  simp only [List.foldl_cons, List.foldl_nil, List.map_cons, List.map_nil,
    List.sum_cons, List.sum_nil]
  omega

/-- The code's check-digit mapping (`11 - total % 11`, values ≥ 10 to 0)
equals the spec reading (`(11 - total % 11) % 11`, value 10 to 0). -/
theorem check_digit_map_eq (t : Nat) :
    (if 10 ≤ 11 - t % 11 then 0 else 11 - t % 11)
      = (if (11 - t % 11) % 11 = 10 then 0 else (11 - t % 11) % 11) := by
  have h : t % 11 < 11 := Nat.mod_lt _ (by norm_num)
  split_ifs <;> omega

set_option maxHeartbeats 1000000 in
/-- C1: the NIF validator accepts exactly the strings of nine decimal
digits whose first digit is in {1,2,3,5,6,8,9} and whose mod-11 check
digit (weights 9..2, check value 10 mapping to 0) equals the ninth
digit. -/
theorem C1_nif_checksum (s : String) : _validar_nif_pt s = true ↔ nifChecksumSpec s := by
  unfold _validar_nif_pt nifChecksumSpec
  cases hcs : s.data with
  | nil => simp
  | cons c0 rest =>
    simp only [List.head?_cons]
    constructor
    · intro hT
      have hA : ((c0 :: rest).length == 9 && (c0 :: rest).all Char.isDigit) = true := by
        by_contra hA
        rw [if_neg hA] at hT
        exact Bool.false_ne_true hT
      rw [if_pos hA] at hT
      have hB : ("1235689".data.contains c0) = true := by
        by_contra hB
        rw [if_neg hB] at hT
        exact Bool.false_ne_true hT
      rw [if_pos hB] at hT
      rw [Bool.and_eq_true, beq_iff_eq] at hA
      obtain ⟨hlen, hdig⟩ := hA
      rw [List.all_eq_true] at hdig
      rw [beq_iff_eq, foldl_range8_eq_sum, check_digit_map_eq] at hT
      exact ⟨hlen, hdig, ⟨c0, rest, rfl, List.elem_iff.mp hB⟩, hT⟩
    · rintro ⟨hlen, hdig, ⟨c0x, restx, hx, hmem⟩, hchk⟩
      injection hx with h1 h2
      subst h1
      subst h2
      have hA : ((c0 :: rest).length == 9 && (c0 :: rest).all Char.isDigit) = true := by
        rw [Bool.and_eq_true, beq_iff_eq, List.all_eq_true]
        exact ⟨hlen, hdig⟩
      rw [if_pos hA, if_pos (List.elem_iff.mpr hmem)]
      rw [beq_iff_eq, foldl_range8_eq_sum, check_digit_map_eq]
      exact hchk

/-! ## C10 support: non-emptiness of money matches and fold bridges -/

theorem tryB1_ne_nil (l m : List Char) (h : tryB1 l = some m) : ¬ m = [] := by
  unfold tryB1 at h
  simp only [] at h
  split at h
  · next hcond =>
    split at h
    · injection h with h
      intro hm
      rw [← h, List.append_eq_nil] at hm
      have hlen := congrArg List.length hm.1
      simp only [List.length_nil] at hlen
      omega
    · cases h
  · cases h

theorem tryB2sep_ne_nil (sep : Char) (l m : List Char) (h : tryB2sep sep l = some m) :
    ¬ m = [] := by
  unfold tryB2sep at h
  simp only [] at h
  split at h
  · cases h
  · split at h
    · split at h
      · injection h with h
        intro hm
        rw [← h, List.append_eq_nil] at hm
        exact List.cons_ne_nil _ _ hm.2
      · cases h
    · cases h

theorem tryMoney_ne_nil (l m : List Char) (h : tryMoney l = some m) : ¬ m = [] := by
  unfold tryMoney at h
  split at h
  · next heq =>
    injection h with h
    exact h ▸ tryB1_ne_nil _ _ heq
  · split at h
    · next heq =>
      injection h with h
      exact h ▸ tryB2sep_ne_nil _ _ _ heq
    · exact tryB2sep_ne_nil _ _ _ h

theorem searchMoney_ne_nil (l m : List Char) (h : searchMoney l = some m) : ¬ m = [] := by
  induction l with
  | nil => cases h
  | cons c rest ih =>
    unfold searchMoney at h
    split at h
    · next heq =>
      injection h with h
      exact h ▸ tryMoney_ne_nil _ _ heq
    · exact ih h

theorem scanLineAux_some {α : Type} (attempt : Option Char → List Char → Option α)
    (prev : Option Char) (l : List Char) (m : α)
    (h : scanLineAux attempt prev l = some m) : ∃ p2 l2, attempt p2 l2 = some m := by
  induction l generalizing prev with
  | nil => cases h
  | cons c rest ih =>
    unfold scanLineAux at h
    split at h
    · next heq =>
      injection h with h
      exact ⟨prev, c :: rest, h ▸ heq⟩
    · exact ih _ h

theorem attemptTotalCI_ne_nil (prev : Option Char) (l m : List Char)
    (h : attemptTotalCI prev l = some m) : ¬ m = [] := by
  unfold attemptTotalCI at h
  split at h
  · exact searchMoney_ne_nil _ _ h
  · cases h

theorem attemptValorBase_ne_nil (prev : Option Char) (l m : List Char)
    (h : attemptValorBase prev l = some m) : ¬ m = [] := by
  unfold attemptValorBase at h
  split at h
  · simp only [] at h
    split at h
    · split at h
      · exact tryMoney_ne_nil _ _ h
      · cases h
    · cases h
  · cases h

theorem attemptIvaLine_ne_nil (prev : Option Char) (l m : List Char)
    (h : attemptIvaLine prev l = some m) : ¬ m = [] := by
  unfold attemptIvaLine at h
  split at h
  · split at h
    · exact tryMoney_ne_nil _ _ h
    · cases h
  · cases h

theorem mTot_ne_empty (ln : String) (v : String) (h : mTot ln = some v) : ¬ v = "" := by
  unfold mTot at h
  split at h
  · cases hsc : searchTotalMoneyCI ln.data with
    | none => rw [hsc] at h; cases h
    | some m =>
      rw [hsc] at h
      injection h with h
      obtain ⟨p2, l2, hat⟩ := scanLineAux_some _ _ _ _ hsc
      exact h ▸ mk_ne_empty _ (attemptTotalCI_ne_nil _ _ _ hat)
  · cases h

theorem mBase_ne_empty (ln : String) (v : String) (h : mBase ln = some v) : ¬ v = "" := by
  unfold mBase at h
  cases hsc : scanLineAux attemptValorBase none ln.data with
  | none => rw [hsc] at h; cases h
  | some m =>
    rw [hsc] at h
    injection h with h
    obtain ⟨p2, l2, hat⟩ := scanLineAux_some _ _ _ _ hsc
    exact h ▸ mk_ne_empty _ (attemptValorBase_ne_nil _ _ _ hat)

theorem mIva_ne_empty (ln : String) (v : String) (h : mIva ln = some v) : ¬ v = "" := by
  unfold mIva at h
  cases hsc : scanLineAux attemptIvaLine none ln.data with
  | none => rw [hsc] at h; cases h
  | some m =>
    rw [hsc] at h
    injection h with h
    obtain ⟨p2, l2, hat⟩ := scanLineAux_some _ _ _ _ hsc
    exact h ▸ mk_ne_empty _ (attemptIvaLine_ne_nil _ _ _ hat)

/-- The TOTAL-line loop body coincides with the overwrite step of `mTot`. -/
theorem totalStep_eq (acc : Option String) (ln : String) :
    (if hasTotalToken ln.data then
      match searchTotalMoneyCI ln.data with
      | some m => some (⟨m⟩ : String)
      | none => acc
    else acc)
    = owStep mTot acc ln := by
  unfold owStep mTot
  by_cases h : hasTotalToken ln.data
  · rw [if_pos h, if_pos h]
    cases searchTotalMoneyCI ln.data <;> rfl
  · rw [if_neg h, if_neg h]

/-- First component of the labelled Base/IVA line loop. -/
theorem baseFold_fst (lines : List String) (b0 i0 : Option String) :
    (lines.foldl (fun (bi : Option String × Option String) ln =>
      (match scanLineAux attemptValorBase none ln.data with
        | some m => some (⟨m⟩ : String)
        | none => bi.1,
       match scanLineAux attemptIvaLine none ln.data with
        | some m => some (⟨m⟩ : String)
        | none => bi.2)) (b0, i0)).1
      = lines.foldl (owStep mBase) b0 := by
  induction lines generalizing b0 i0 with
  | nil => rfl
  | cons ln rest ih =>
    rw [List.foldl_cons, List.foldl_cons, ih]
    congr 1
    unfold owStep mBase
    cases scanLineAux attemptValorBase none ln.data <;> rfl

/-- Second component of the labelled Base/IVA line loop. -/
theorem baseFold_snd (lines : List String) (b0 i0 : Option String) :
    (lines.foldl (fun (bi : Option String × Option String) ln =>
      (match scanLineAux attemptValorBase none ln.data with
        | some m => some (⟨m⟩ : String)
        | none => bi.1,
       match scanLineAux attemptIvaLine none ln.data with
        | some m => some (⟨m⟩ : String)
        | none => bi.2)) (b0, i0)).2
      = lines.foldl (owStep mIva) i0 := by
  induction lines generalizing b0 i0 with
  | nil => rfl
  | cons ln rest ih =>
    rw [List.foldl_cons, List.foldl_cons, ih]
    congr 1
    unfold owStep mIva
    cases scanLineAux attemptIvaLine none ln.data <;> rfl

/-- Already-found (non-empty) values survive the breakdown scan: first
component. -/
theorem breakdownScan_fst (lines : List String) (t i : Option String) (x : String)
    (hx : ¬ x = "") : (breakdownScan lines (some x, t, i)).1 = some x := by
  induction lines generalizing t i with
  | nil => rfl
  | cons ln rest ih =>
    unfold breakdownScan
    by_cases hh : isBreakHeader ln
    · rw [if_pos hh]
      cases firstRow (rest.take 5) with
      | none => exact ih _ _
      | some trip =>
        obtain ⟨m1, m2, m3⟩ := trip
        show (breakdownScan rest
          (pyOrV (some x) ⟨m1⟩, pyOrV t ⟨m2⟩, pyOrV i ⟨m3⟩)).1 = some x
        rw [show pyOrV (some x) (⟨m1⟩ : String) = some x from by simp [pyOrV, hx]]
        exact ih _ _
    · rw [if_neg hh]
      exact ih _ _

/-- Already-found (non-empty) values survive the breakdown scan: second
component. -/
theorem breakdownScan_snd (lines : List String) (b i : Option String) (x : String)
    (hx : ¬ x = "") : (breakdownScan lines (b, some x, i)).2.1 = some x := by
  induction lines generalizing b i with
  | nil => rfl
  | cons ln rest ih =>
    unfold breakdownScan
    by_cases hh : isBreakHeader ln
    · rw [if_pos hh]
      cases firstRow (rest.take 5) with
      | none => exact ih _ _
      | some trip =>
        obtain ⟨m1, m2, m3⟩ := trip
        show (breakdownScan rest
          (pyOrV b ⟨m1⟩, pyOrV (some x) ⟨m2⟩, pyOrV i ⟨m3⟩)).2.1 = some x
        rw [show pyOrV (some x) (⟨m2⟩ : String) = some x from by simp [pyOrV, hx]]
        exact ih _ _
    · rw [if_neg hh]
      exact ih _ _

/-- Already-found (non-empty) values survive the breakdown scan: third
component. -/
theorem breakdownScan_trd (lines : List String) (b t : Option String) (x : String)
    (hx : ¬ x = "") : (breakdownScan lines (b, t, some x)).2.2 = some x := by
  induction lines generalizing b t with
  | nil => rfl
  | cons ln rest ih =>
    unfold breakdownScan
    by_cases hh : isBreakHeader ln
    · rw [if_pos hh]
      cases firstRow (rest.take 5) with
      | none => exact ih _ _
      | some trip =>
        obtain ⟨m1, m2, m3⟩ := trip
        show (breakdownScan rest
          (pyOrV b ⟨m1⟩, pyOrV t ⟨m2⟩, pyOrV (some x) ⟨m3⟩)).2.2 = some x
        rw [show pyOrV (some x) (⟨m3⟩ : String) = some x from by simp [pyOrV, hx]]
        exact ih _ _
    · rw [if_neg hh]
      exact ih _ _

theorem getLast?_isSome_of_ne_nil {α : Type} (l : List α) (h : ¬ l = []) :
    ∃ v, l.getLast? = some v := by
  cases l with
  | nil => exact absurd rfl h
  | cons a as =>
    clear h
    induction as generalizing a with
    | nil => exact ⟨a, rfl⟩
    | cons b bs ih =>
      rw [List.getLast?_cons_cons]
      exact ih b

/-- The `total` field of `_extract_totals` when some TOTAL line matched. -/
theorem extract_totals_total (lines : List String) (tn : String) (v : String)
    (hv : (lines.filterMap mTot).getLast? = some v) :
    (_extract_totals lines tn).total = some v := by
  obtain ⟨ln, hln, hmt⟩ :=
    List.mem_filterMap.mp (List.mem_of_mem_getLast? (Option.mem_def.mpr hv))
  have hvne := mTot_ne_empty ln v hmt
  have hF : lines.foldl (fun acc ln =>
      if hasTotalToken ln.data then
        match searchTotalMoneyCI ln.data with
        | some m => some (⟨m⟩ : String)
        | none => acc
      else acc) none = some v := by
    calc lines.foldl (fun acc ln =>
        if hasTotalToken ln.data then
          match searchTotalMoneyCI ln.data with
          | some m => some (⟨m⟩ : String)
          | none => acc
        else acc) none
        = lines.foldl (owStep mTot) none :=
          List.foldl_ext _ _ none (fun acc ln _ => totalStep_eq acc ln)
      _ = some v := by rw [foldl_overwrite, hv]; rfl
  unfold _extract_totals
  simp only []
  rw [hF]
  rw [show pyNot (some v) = false from by simp [pyNot, hvne]]
  rfl

/-- The `base` field of `_extract_totals` when some labelled Base line
matched. -/
theorem extract_totals_base (lines : List String) (tn : String) (v : String)
    (hv : (lines.filterMap mBase).getLast? = some v) :
    (_extract_totals lines tn).base = some v := by
  obtain ⟨ln, hln, hmb⟩ :=
    List.mem_filterMap.mp (List.mem_of_mem_getLast? (Option.mem_def.mpr hv))
  have hvne := mBase_ne_empty ln v hmb
  unfold _extract_totals
  simp only []
  rw [baseFold_fst, foldl_overwrite, hv]
  exact breakdownScan_fst _ _ _ _ hvne

/-- The `iva` field of `_extract_totals` when some labelled IVA line
matched. -/
theorem extract_totals_iva (lines : List String) (tn : String) (v : String)
    (hv : (lines.filterMap mIva).getLast? = some v) :
    (_extract_totals lines tn).iva = some v := by
  obtain ⟨ln, hln, hmi⟩ :=
    List.mem_filterMap.mp (List.mem_of_mem_getLast? (Option.mem_def.mpr hv))
  have hvne := mIva_ne_empty ln v hmi
  unfold _extract_totals
  simp only []
  rw [baseFold_snd, foldl_overwrite, hv]
  rw [show (((some v).elim none some) : Option String) = some v from rfl]
  rw [breakdownScan_trd _ _ _ _ hvne]
  rw [show pyNot (some v) = false from by simp [pyNot, hvne]]
  rfl

/-- C10: the TOTAL line scan and the labelled `Valor Base:` / `IVA:` line
scans keep the match from the last matching line (later matches
overwrite), while the breakdown-table scan never overwrites an
already-found value. -/
theorem C10_extract_totals_overwrite :
    (∀ (lines : List String) (tn : String), 1 < (lines.filterMap mTot).length →
      (_extract_totals lines tn).total = (lines.filterMap mTot).getLast?) ∧
    (∀ (lines : List String) (tn : String), ¬ lines.filterMap mBase = [] →
      (_extract_totals lines tn).base = (lines.filterMap mBase).getLast?) ∧
    (∀ (lines : List String) (tn : String), ¬ lines.filterMap mIva = [] →
      (_extract_totals lines tn).iva = (lines.filterMap mIva).getLast?) ∧
    (∀ (lines : List String) (b t i : Option String) (x : String), ¬ x = "" →
      (breakdownScan lines (some x, t, i)).1 = some x ∧
      (breakdownScan lines (b, some x, i)).2.1 = some x ∧
      (breakdownScan lines (b, t, some x)).2.2 = some x) := by
  refine ⟨?_, ?_, ?_, ?_⟩
  · intro lines tn h
    have hne : ¬ lines.filterMap mTot = [] := by
      intro hh
      rw [hh] at h
      simp at h
    obtain ⟨v, hv⟩ := getLast?_isSome_of_ne_nil _ hne
    rw [hv]
    exact extract_totals_total lines tn v hv
  · intro lines tn hne
    obtain ⟨v, hv⟩ := getLast?_isSome_of_ne_nil _ hne
    rw [hv]
    exact extract_totals_base lines tn v hv
  · intro lines tn hne
    obtain ⟨v, hv⟩ := getLast?_isSome_of_ne_nil _ hne
    rw [hv]
    exact extract_totals_iva lines tn v hv
  · intro lines b t i x hx
    exact ⟨breakdownScan_fst _ _ _ _ hx, breakdownScan_snd _ _ _ _ hx,
      breakdownScan_trd _ _ _ _ hx⟩

/-- C10 witness: two TOTAL lines, two labelled Base lines and two
labelled IVA lines each resolve to the later line's amount, and a
pre-existing value survives the breakdown scan. -/
theorem C10_extract_totals_overwrite_witness :
    (_extract_totals ["TOTAL 1,00", "TOTAL 2,00"] "").total
        = (["TOTAL 1,00", "TOTAL 2,00"].filterMap mTot).getLast? ∧
    (["TOTAL 1,00", "TOTAL 2,00"].filterMap mTot).getLast? = some "2,00" ∧
    (_extract_totals ["Valor Base: 3,00", "Valor Base: 4,00"] "").base
        = (["Valor Base: 3,00", "Valor Base: 4,00"].filterMap mBase).getLast? ∧
    (["Valor Base: 3,00", "Valor Base: 4,00"].filterMap mBase).getLast? = some "4,00" ∧
    (_extract_totals ["IVA: 5,00", "IVA: 6,00"] "").iva
        = (["IVA: 5,00", "IVA: 6,00"].filterMap mIva).getLast? ∧
    (breakdownScan ["x"] (some "9,99", none, none)).1 = some "9,99" :=
  ⟨C10_extract_totals_overwrite.1 ["TOTAL 1,00", "TOTAL 2,00"] "" (by decide),
   by decide,
   C10_extract_totals_overwrite.2.1 ["Valor Base: 3,00", "Valor Base: 4,00"] "" (by decide),
   by decide,
   C10_extract_totals_overwrite.2.2.1 ["IVA: 5,00", "IVA: 6,00"] "" (by decide),
   (C10_extract_totals_overwrite.2.2.2 ["x"] none none none "9,99" (by decide)).1⟩

/-! ## C4 support: the tax-table loop -/

theorem lookupV_cons_self (v : List (String × ℚ)) (c : String) (q : ℚ) :
    lookupV ((c, q) :: v) c = some q := by
  simp [lookupV, List.find?]

theorem lookupV_cons_ne (v : List (String × ℚ)) (c c2 : String) (q : ℚ) (h : ¬ c2 = c) :
    lookupV ((c, q) :: v) c2 = lookupV v c2 := by
  have hbeq : (c == c2) = false := beq_eq_false_iff_ne.mpr (fun hh => h hh.symm)
  simp [lookupV, List.find?, hbeq]

theorem lookupV_nil (c : String) : lookupV [] c = none := rfl

theorem entryErrs_not_ivapt (v : List (String × ℚ)) (e : TaxTableEntry)
    (hce : entryComplete e) (hni : ¬ isIvaPt e) : entryErrs v e = [] := by
  unfold entryErrs
  rw [if_neg (not_not_intro hce), if_pos hni]

theorem entryVist_not_ivapt (v : List (String × ℚ)) (e : TaxTableEntry)
    (hni : ¬ isIvaPt e) : entryVist v e = v := by
  unfold entryVist
  rw [if_neg (fun hh => hni hh.2)]

theorem entryErrs_parse_fail (v : List (String × ℚ)) (e : TaxTableEntry)
    (hce : entryComplete e) (hiva : isIvaPt e) (hp : eperc e = none) :
    entryErrs v e = ["IVA " ++ ecode e ++ ": TaxPercentage inválido."] := by
  unfold entryErrs
  rw [if_neg (not_not_intro hce), if_neg (not_not_intro hiva), hp]

theorem entryVist_parse_fail (v : List (String × ℚ)) (e : TaxTableEntry)
    (hce : entryComplete e) (hiva : isIvaPt e) (hp : eperc e = none) :
    entryVist v e = v := by
  unfold entryVist
  rw [if_pos ⟨hce, hiva⟩, hp]

theorem entryErrs_unknown (v : List (String × ℚ)) (e : TaxTableEntry) (q : ℚ)
    (hce : entryComplete e) (hiva : isIvaPt e)
    (hp : eperc e = some q) (hk : IVA_REGRAS (ecode e) = none) :
    entryErrs v e = ["IVA TaxCode desconhecido: " ++ ecode e ++ "."] := by
  unfold entryErrs
  rw [if_neg (not_not_intro hce), if_neg (not_not_intro hiva), hp, hk]

theorem entryVist_unknown (v : List (String × ℚ)) (e : TaxTableEntry) (q : ℚ)
    (hce : entryComplete e) (hiva : isIvaPt e)
    (hp : eperc e = some q) (hk : IVA_REGRAS (ecode e) = none) :
    entryVist v e = v := by
  unfold entryVist
  rw [if_pos ⟨hce, hiva⟩, hp, hk]

theorem entryErrs_known (v : List (String × ℚ)) (e : TaxTableEntry) (q r : ℚ)
    (hce : entryComplete e) (hiva : isIvaPt e)
    (hp : eperc e = some q) (hk : IVA_REGRAS (ecode e) = some r) :
    entryErrs v e
      = (if |q - r| > 1 / 1000 then ["IVA " ++ ecode e ++ ": TaxPercentage inválido."] else [])
        ++ (lookupV v (ecode e)).elim []
            (fun q0 => if q0 ≠ q then
                ["IVA " ++ ecode e ++ ": duplicado com percentagens diferentes."]
              else []) := by
  unfold entryErrs
  rw [if_neg (not_not_intro hce), if_neg (not_not_intro hiva), hp, hk]
  cases lookupV v (ecode e) <;> rfl

theorem entryVist_known (v : List (String × ℚ)) (e : TaxTableEntry) (q r : ℚ)
    (hce : entryComplete e) (hiva : isIvaPt e)
    (hp : eperc e = some q) (hk : IVA_REGRAS (ecode e) = some r) :
    entryVist v e = (ecode e, q) :: v := by
  unfold entryVist
  rw [if_pos ⟨hce, hiva⟩, hp, hk]

/-- The tax-table loop over complete entries is silent iff every IVA/PT
entry matches the reference table, no code repeats with differing
percentages, and the incoming dictionary agrees with the entries. -/
theorem taxLoop_nil_iff (l : List TaxTableEntry) (v : List (String × ℚ))
    (hc : ∀ e ∈ l, entryComplete e) :
    taxLoop l v = [] ↔
      (∀ e ∈ l, isIvaPt e → okRef e) ∧ noConflict l ∧ vCompat v l := by
  induction l generalizing v with
  | nil =>
    simp only [taxLoop]
    constructor
    · intro _
      exact ⟨fun e he => absurd he (List.not_mem_nil e),
        fun e1 h1 => absurd h1 (List.not_mem_nil e1),
        fun e he => absurd he (List.not_mem_nil e)⟩
    · intro _
      trivial
  | cons e rest ih =>
    have hce : entryComplete e := hc e (List.mem_cons_self e rest)
    have hcr : ∀ x ∈ rest, entryComplete x := fun x hx => hc x (List.mem_cons_of_mem _ hx)
    unfold taxLoop
    rw [List.append_eq_nil]
    by_cases hiva : isIvaPt e
    case neg =>
      rw [entryErrs_not_ivapt v e hce hiva, entryVist_not_ivapt v e hiva, ih v hcr]
      constructor
      · rintro ⟨-, h1, h2, h3⟩
        refine ⟨?_, ?_, ?_⟩
        · intro x hx hivax
          rcases List.mem_cons.mp hx with rfl | hx
          · exact absurd hivax hiva
          · exact h1 x hx hivax
        · intro e1 h1m e2 h2m hi1 hi2 hcode
          rcases List.mem_cons.mp h1m with rfl | h1m
          · exact absurd hi1 hiva
          rcases List.mem_cons.mp h2m with rfl | h2m
          · exact absurd hi2 hiva
          exact h2 e1 h1m e2 h2m hi1 hi2 hcode
        · intro x hx hivax
          rcases List.mem_cons.mp hx with rfl | hx
          · exact absurd hivax hiva
          · exact h3 x hx hivax
      · rintro ⟨h1, h2, h3⟩
        refine ⟨rfl, fun x hx => h1 x (List.mem_cons_of_mem _ hx), ?_, ?_⟩
        · intro e1 h1m e2 h2m
          exact h2 e1 (List.mem_cons_of_mem _ h1m) e2 (List.mem_cons_of_mem _ h2m)
        · intro x hx
          exact h3 x (List.mem_cons_of_mem _ hx)
    case pos =>
      cases hp : eperc e with
      | none =>
        rw [entryErrs_parse_fail v e hce hiva hp]
        constructor
        · rintro ⟨habs, -⟩
          exact absurd habs (by simp)
        · rintro ⟨h1, -, -⟩
          obtain ⟨q, r, hq, -, -⟩ := h1 e (List.mem_cons_self e rest) hiva
          rw [hp] at hq
          cases hq
      | some q =>
        cases hk : IVA_REGRAS (ecode e) with
        | none =>
          rw [entryErrs_unknown v e q hce hiva hp hk]
          constructor
          · rintro ⟨habs, -⟩
            exact absurd habs (by simp)
          · rintro ⟨h1, -, -⟩
            obtain ⟨q2, r, hq2, hr, -⟩ := h1 e (List.mem_cons_self e rest) hiva
            rw [hk] at hr
            cases hr
        | some r =>
          rw [entryErrs_known v e q r hce hiva hp hk, entryVist_known v e q r hce hiva hp hk,
            ih ((ecode e, q) :: v) hcr, List.append_eq_nil]
          constructor
          · rintro ⟨⟨hT, hD⟩, hOk, hNc, hVc⟩
            have htol : |q - r| ≤ 1 / 1000 := by
              by_contra hgt
              rw [if_pos (not_le.mp hgt)] at hT
              exact absurd hT (by simp)
            have hdup : ∀ q0, lookupV v (ecode e) = some q0 → q0 = q := by
              intro q0 hq0
              rw [hq0] at hD
              by_contra hqq
              rw [show ((some q0).elim [] (fun q1 => if q1 ≠ q then
                  ["IVA " ++ ecode e ++ ": duplicado com percentagens diferentes."] else []))
                  = (if q0 ≠ q then
                      ["IVA " ++ ecode e ++ ": duplicado com percentagens diferentes."]
                    else []) from rfl, if_pos hqq] at hD
              exact absurd hD (by simp)
            refine ⟨?_, ?_, ?_⟩
            · intro x hx hivax
              rcases List.mem_cons.mp hx with rfl | hx
              · exact ⟨q, r, hp, hk, htol⟩
              · exact hOk x hx hivax
            · have hhead : ∀ e2 ∈ rest, isIvaPt e2 → ecode e = ecode e2 →
                  eperc e = eperc e2 := by
                intro e2 h2m hi2 hcode
                obtain ⟨q2, r2, hq2, -, -⟩ := hOk e2 h2m hi2
                have hlk : lookupV ((ecode e, q) :: v) (ecode e2) = some q :=
                  hcode ▸ lookupV_cons_self v (ecode e) q
                have := hVc e2 h2m hi2 q2 q hq2 hlk
                rw [hp, hq2, this]
              intro e1 h1m e2 h2m hi1 hi2 hcode
              rcases List.mem_cons.mp h1m with heq1 | hm1
              · rcases List.mem_cons.mp h2m with heq2 | hm2
                · rw [heq1, heq2]
                · rw [heq1]
                  rw [heq1] at hcode
                  exact hhead e2 hm2 hi2 hcode
              · rcases List.mem_cons.mp h2m with heq2 | hm2
                · rw [heq2]
                  rw [heq2] at hcode
                  exact (hhead e1 hm1 hi1 hcode.symm).symm
                · exact hNc e1 hm1 e2 hm2 hi1 hi2 hcode
            · intro x hx hivax q1 q2 hq1 hlk
              rcases List.mem_cons.mp hx with rfl | hx
              · rw [hp] at hq1
                injection hq1 with hq1
                rw [← hq1]
                exact (hdup q2 hlk).symm
              · by_cases hcc : ecode x = ecode e
                · have hx2 : eperc e = eperc x := by
                    obtain ⟨qx, rx, hqx, -, -⟩ := hOk x hx hivax
                    have hlk2 : lookupV ((ecode e, q) :: v) (ecode x) = some q :=
                      hcc ▸ lookupV_cons_self v (ecode e) q
                    have := hVc x hx hivax qx q hqx hlk2
                    rw [hp, hqx, this]
                  rw [hcc] at hlk
                  have hq2q := hdup q2 hlk
                  rw [hp] at hx2
                  rw [← hx2] at hq1
                  injection hq1 with hq1
                  rw [← hq1, hq2q]
                · exact hVc x hx hivax q1 q2 hq1
                    (by rw [lookupV_cons_ne v (ecode e) (ecode x) q hcc]; exact hlk)
          · rintro ⟨hOk, hNc, hVc⟩
            have htol : (if |q - r| > 1 / 1000 then
                ["IVA " ++ ecode e ++ ": TaxPercentage inválido."] else []) = [] := by
              obtain ⟨q2, r2, hq2, hr2, hle⟩ := hOk e (List.mem_cons_self e rest) hiva
              rw [hp] at hq2
              injection hq2 with hq2
              rw [hk] at hr2
              injection hr2 with hr2
              rw [if_neg (not_lt.mpr (hq2 ▸ hr2 ▸ hle))]
            have hdup : ((lookupV v (ecode e)).elim []
                (fun q0 => if q0 ≠ q then
                    ["IVA " ++ ecode e ++ ": duplicado com percentagens diferentes."]
                  else [])) = [] := by
              cases hlk : lookupV v (ecode e) with
              | none => rfl
              | some q0 =>
                have := hVc e (List.mem_cons_self e rest) hiva q q0 hp hlk
                rw [show ((some q0).elim [] (fun q1 => if q1 ≠ q then
                    ["IVA " ++ ecode e ++ ": duplicado com percentagens diferentes."] else []))
                    = (if q0 ≠ q then
                        ["IVA " ++ ecode e ++ ": duplicado com percentagens diferentes."]
                      else []) from rfl, if_neg (not_not_intro this.symm)]
            refine ⟨⟨htol, hdup⟩, ?_, ?_, ?_⟩
            · intro x hx
              exact hOk x (List.mem_cons_of_mem _ hx)
            · intro e1 h1m e2 h2m
              exact hNc e1 (List.mem_cons_of_mem _ h1m) e2 (List.mem_cons_of_mem _ h2m)
            · intro x hx hivax q1 q2 hq1 hlk
              by_cases hcc : ecode x = ecode e
              · have hlk2 : lookupV ((ecode e, q) :: v) (ecode x) = some q :=
                  hcc ▸ lookupV_cons_self v (ecode e) q
                rw [hlk2] at hlk
                injection hlk with hlk
                have hpp := hNc e (List.mem_cons_self e rest) x (List.mem_cons_of_mem _ hx)
                  hiva hivax hcc.symm
                rw [hp, hq1] at hpp
                injection hpp with hpp
                rw [← hlk, hpp]
              · rw [lookupV_cons_ne v (ecode e) (ecode x) q hcc] at hlk
                exact hVc x (List.mem_cons_of_mem _ hx) hivax q1 q2 hq1 hlk

/-- C4: over a non-empty tax table whose entries all carry the four
fields, the pass appends zero errors iff every IVA/PT entry's percentage
parses and matches the reference table within 0.001 and no code appears
twice among IVA/PT entries with differing percentages; non-IVA/PT
entries impose nothing beyond completeness. -/
theorem C4_tax_table (entries : List TaxTableEntry) (errors : List String)
    (hne : ¬ entries = [])
    (hc : ∀ e ∈ entries, entryComplete e) :
    validar_tax_table (some entries) errors = errors ↔
      ((∀ e ∈ entries, isIvaPt e → okRef e) ∧ noConflict entries) := by
  unfold validar_tax_table
  show (if entries.isEmpty = true then errors ++ ["TaxTable sem TaxTableEntry."]
      else errors ++ taxLoop entries []) = errors ↔
    (∀ e ∈ entries, isIvaPt e → okRef e) ∧ noConflict entries
  rw [if_neg (fun hh => hne (List.isEmpty_iff.mp hh))]
  constructor
  · intro h
    have hlen := congrArg List.length h
    rw [List.length_append] at hlen
    have hzero : (taxLoop entries []).length = 0 := by omega
    have hl : taxLoop entries [] = [] := List.length_eq_zero.mp hzero
    have hiff := (taxLoop_nil_iff entries [] hc).mp hl
    exact ⟨hiff.1, hiff.2.1⟩
  · intro h
    have hl : taxLoop entries [] = [] :=
      (taxLoop_nil_iff entries [] hc).mpr
        ⟨h.1, h.2, by
          intro e he hiva q q2 hq hlk
          rw [lookupV_nil] at hlk
          cases hlk⟩
    rw [hl, List.append_nil]

/-- C4 witness: the single entry (IVA, PT, NOR, 23.0) validates with
zero errors. -/
theorem C4_tax_table_witness :
    validar_tax_table (some [⟨some "IVA", some "PT", some "NOR", some "23.0"⟩]) [] = [] := by
  have hep : eperc ⟨some "IVA", some "PT", some "NOR", some "23.0"⟩ = some 23 := by
    unfold eperc
    rw [show _ftext
        (⟨some "IVA", some "PT", some "NOR", some "23.0"⟩ : TaxTableEntry).taxPercentage
        = some "23.0" from by decide, Option.some_bind]
    exact pyFloat_dot _ ['2', '3'] ['0'] 23 0 1 _ (by decide) (by decide) (by decide)
      (by decide) (by decide) (by decide) (by decide) (by norm_num)
  have hco : ecode (⟨some "IVA", some "PT", some "NOR", some "23.0"⟩ : TaxTableEntry)
      = "NOR" := by decide
  refine (C4_tax_table _ [] (List.cons_ne_nil _ _) ?_).mpr ⟨?_, ?_⟩
  · intro e he
    rw [List.mem_singleton] at he
    subst he
    decide
  · intro e he hiva
    rw [List.mem_singleton] at he
    subst he
    refine ⟨23, 23, hep, ?_, by norm_num⟩
    rw [hco]
    rfl
  · intro e1 h1 e2 h2 hi1 hi2 hcode
    rw [List.mem_singleton] at h1 h2
    rw [h1, h2]

end Saft
